import Mathlib

/-! VapourSynth-madVR: the frame upload of `source.cpp`.

A shallow embedding of `upload_frame` and `update_frame` (src/src/source.cpp) and the
properties of the frame upload proved about it.

Conventions of the embedding:

* A buffer (`Buf`) is a map from element offsets to sample values.  An element is one `T`
  of the C++ template (`uint8_t` when `bps = 1`, `uint16_t` when `bps = 2`); offset `i`
  of a buffer is the element `ptr[i]` of the C++ pointer the buffer stands for, that is
  byte offset `bps * i`.  Offsets are integers because C++ pointer arithmetic is signed.
* The three source planes and the backing memory of each texture are separate buffers:
  the planes are `const` inputs and every destination is the memory handed out by
  `LockRect`, so a source never overlaps a destination and two textures never overlap.
* C++ `int` and `ptrdiff_t` are `Int`; `/` on them is `Int.tdiv` (truncation).  The
  embedding describes the executions without signed overflow (overflow is undefined in
  C++): those where `4 * luma_width + 2` fits an `int`.
* Every store is also logged, in program order, so that properties about what is written,
  how often and in which order can be stated.
-/

namespace MadVR

/-! ## Memory -/

/-- A buffer of samples, addressed by element offset from its base pointer. -/
abbrev Buf := Int → Nat

/-- The assignment `p[i] = v`. -/
def poke (m : Buf) (i : Int) (v : Nat) : Buf := fun j => if j = i then v else m j

/-- The part of `D3DLOCKED_RECT` the code reads besides `pBits`: the row pitch in bytes.
`pBits` itself is the base of the texture's buffer, element offset `0`. -/
structure D3DLOCKED_RECT where
  Pitch : Int
  deriving DecidableEq, Repr

/-- The two destinations of `upload_frame`: `mlock->pBits` and `clock->pBits`. -/
inductive Dst
  | mdst
  | cdst
  deriving DecidableEq, Repr

/-- One executed store `dst[idx] = val`. -/
structure Store where
  dst : Dst
  idx : Int
  val : Nat
  deriving DecidableEq, Repr

/-! ## Loops -/

/-- The first `k` iterations `i = 0, 1, ..., k - 1` of a counting loop, in order. -/
def forLoop {σ : Type} (body : Int → σ → σ) : Nat → σ → σ
  | 0, s => s
  | k + 1, s => body (k : Int) (forLoop body k s)

/-- The loop `for (int i = 0; i < bound; i++) body`. -/
def for_lt {σ : Type} (bound : Int) (body : Int → σ → σ) (s : σ) : σ :=
  forLoop body bound.toNat s

/-! ## `upload_frame` (source.cpp, lines 48-106) -/

/-- The local variables of `upload_frame` that change while it runs, the two destination
buffers, and the log of stores. -/
structure UploadState where
  mdst_ptr : Int
  cdst_ptr : Int
  src0_ptr : Int
  src1_ptr : Int
  src2_ptr : Int
  mbits : Buf
  cbits : Buf
  stores : List Store

/-- The store `mdst_ptr[i] = v`. -/
def UploadState.put_m (s : UploadState) (i : Int) (v : Nat) : UploadState :=
  { s with mbits := poke s.mbits (s.mdst_ptr + i) v,
           stores := s.stores ++ [⟨Dst.mdst, s.mdst_ptr + i, v⟩] }

/-- The store `cdst_ptr[i] = v`. -/
def UploadState.put_c (s : UploadState) (i : Int) (v : Nat) : UploadState :=
  { s with cbits := poke s.cbits (s.cdst_ptr + i) v,
           stores := s.stores ++ [⟨Dst.cdst, s.cdst_ptr + i, v⟩] }

/-- Body of the inner loop when `single_texture` (lines 73-75). -/
def single_px (src0 src1 src2 : Buf) (x : Int) (s : UploadState) : UploadState :=
  let s := s.put_m (x * 4 + 0) (src0 (s.src0_ptr + x))
  let s := s.put_m (x * 4 + 1) (src1 (s.src1_ptr + x))
  s.put_m (x * 4 + 2) (src2 (s.src2_ptr + x))

/-- Body of the inner loop when not `single_texture` (lines 79-84). -/
def dual_px (c_offset : Int) (src0 src1 src2 : Buf) (chroma_width chroma_height : Int)
    (y x : Int) (s : UploadState) : UploadState :=
  let s := s.put_m x (src0 (s.src0_ptr + x))
  if x < chroma_width ∧ y < chroma_height then
    let s := s.put_c (x * 4 + 0 + c_offset) (src1 (s.src1_ptr + x))
    s.put_c (x * 4 + 1 + c_offset) (src2 (s.src2_ptr + x))
  else s

/-- The statement list `increment_chroma_stride` (lines 91-94). -/
def increment_chroma_stride (cdst_stride chroma_stride : Int) (s : UploadState) :
    UploadState :=
  { s with cdst_ptr := s.cdst_ptr + cdst_stride,
           src1_ptr := s.src1_ptr + chroma_stride,
           src2_ptr := s.src2_ptr + chroma_stride }

/-- Body of the loop over `y` (lines 71-102); the strides are element strides. -/
def row_body (single_texture : Bool) (c_offset : Int) (src0 src1 src2 : Buf)
    (mdst_stride cdst_stride luma_stride chroma_stride : Int)
    (luma_width chroma_width chroma_height : Int) (y : Int) (s : UploadState) :
    UploadState :=
  let s :=
    if single_texture then for_lt luma_width (single_px src0 src1 src2) s
    else for_lt luma_width (dual_px c_offset src0 src1 src2 chroma_width chroma_height y) s
  let s := { s with mdst_ptr := s.mdst_ptr + mdst_stride,
                    src0_ptr := s.src0_ptr + luma_stride }
  if single_texture then increment_chroma_stride cdst_stride chroma_stride s
  else if y < chroma_height then increment_chroma_stride cdst_stride chroma_stride s
  else s

/-- The element stride of the main destination, `mlock->Pitch / bps` (line 58). -/
def mdst_stride_of (bps : Int) (mlock : D3DLOCKED_RECT) : Int := mlock.Pitch.tdiv bps

/-- The element stride of the chroma destination, `clock->Pitch / bps` (line 62).  With
`single_texture` the variable stays uninitialised and nothing is ever stored through
`cdst_ptr`; the embedding gives it the value `0` there. -/
def cdst_stride_of (single_texture : Bool) (bps : Int) (clock : D3DLOCKED_RECT) : Int :=
  if single_texture then 0 else clock.Pitch.tdiv bps

/-- The conversion of a source byte stride to an element stride (lines 65-68). -/
def elem_stride (bps : Int) (stride : Int) : Int :=
  if bps > 1 then stride.tdiv bps else stride

/-- The function template `upload_frame<T, single_texture, c_offset, bps>`.  The template
arguments come first, then the arguments of the call; `src0`, `src1`, `src2` are the
buffers behind `_src0_ptr`, `_src1_ptr`, `_src2_ptr` and `mbits`, `cbits` the memory behind
`mlock->pBits` and `clock->pBits` on entry.  The result is the state on exit. -/
def upload_frame (single_texture : Bool) (c_offset bps : Int)
    (mlock clock : D3DLOCKED_RECT) (luma_stride chroma_stride : Int)
    (src0 src1 src2 : Buf)
    (luma_width luma_height chroma_width chroma_height : Int)
    (mbits cbits : Buf) : UploadState :=
  let mdst_stride := mdst_stride_of bps mlock
  let cdst_stride := cdst_stride_of single_texture bps clock
  let luma_stride := elem_stride bps luma_stride
  let chroma_stride := elem_stride bps chroma_stride
  for_lt luma_height
    (row_body single_texture c_offset src0 src1 src2 mdst_stride cdst_stride luma_stride
      chroma_stride luma_width chroma_width chroma_height)
    { mdst_ptr := 0, cdst_ptr := 0, src0_ptr := 0, src1_ptr := 0, src2_ptr := 0,
      mbits := mbits, cbits := cbits, stores := [] }

/-! ## `update_frame` (source.cpp, lines 108-188) -/

/-- The four texture arguments of `update_frame`. -/
inductive Tex
  | luma_tex
  | chroma_tex
  | yuv444_tex
  | rgb_tex
  deriving DecidableEq, Repr

/-- What `update_frame` does to the textures, in program order. -/
inductive Event
  | lockRect (t : Tex) (ok : Bool)
  | unlockRect (t : Tex)
  | write (t : Tex) (idx : Int) (val : Nat)
  deriving DecidableEq, Repr

/-- The frame arguments of `update_frame`: the three planes (the buffers behind
`plane0_read`, `plane1_read`, `plane2_read`, in elements of the sample type), the bit depth
and the geometry.  The arguments `n`, `frame_format` and `unused` are not read by the
function (outside of `MADVR_DEBUG` printing) and are left out. -/
structure Frame where
  plane0_read : Buf
  plane1_read : Buf
  plane2_read : Buf
  bit_depth : Int
  luma_width : Int
  luma_height : Int
  luma_stride : Int
  chroma_width : Int
  chroma_height : Int
  chroma_stride : Int

/-- The texture arguments of `update_frame` and the behaviour of the Direct3D runtime
behind them: whether each pointer is non-null, what `LockRect(0, &lock, NULL, 0)` on the
texture yields (`none` when it `FAILED`), and the texture's backing memory. -/
structure Device where
  luma_tex : Bool
  chroma_tex : Bool
  yuv444_tex : Bool
  rgb_tex : Bool
  LockRect : Tex → Option D3DLOCKED_RECT
  bits : Tex → Buf

/-- Whether the pointer passed for a texture is non-null. -/
def Device.present (d : Device) : Tex → Bool
  | Tex.luma_tex => d.luma_tex
  | Tex.chroma_tex => d.chroma_tex
  | Tex.yuv444_tex => d.yuv444_tex
  | Tex.rgb_tex => d.rgb_tex

/-- The return value of `update_frame`, the backing memory of the textures on return, and
the events of the call. -/
structure Outcome where
  ret : Bool
  bits : Tex → Buf
  trace : List Event

/-- The variable `single_texture` (line 114). -/
def single_texture_of (d : Device) : Bool := d.yuv444_tex || d.rgb_tex

/-- The variable `main_tex` (line 116). -/
def main_tex_of (d : Device) : Tex :=
  if single_texture_of d then (if d.yuv444_tex then Tex.yuv444_tex else Tex.rgb_tex)
  else Tex.luma_tex

/-- The variable `hbd` (line 130). -/
def hbd_of (f : Frame) : Bool := decide (f.bit_depth > 8)

/-- The variable `src0_ptr` (line 132). -/
def src0_of (f : Frame) (d : Device) : Buf :=
  if single_texture_of d then (if hbd_of f then f.plane0_read else f.plane2_read)
  else f.plane0_read

/-- The variable `src1_ptr` (line 133). -/
def src1_of (f : Frame) (d : Device) : Buf :=
  if single_texture_of d then (if hbd_of f then f.plane1_read else f.plane1_read)
  else (if hbd_of f then f.plane1_read else f.plane2_read)

/-- The variable `src2_ptr` (line 134). -/
def src2_of (f : Frame) (d : Device) : Buf :=
  if single_texture_of d then (if hbd_of f then f.plane2_read else f.plane0_read)
  else (if hbd_of f then f.plane2_read else f.plane1_read)

/-- The call of `upload_frame` selected at lines 140-144, on the memory of the main texture
and of `chroma_tex`. -/
def run_upload (f : Frame) (d : Device) (mlock clock : D3DLOCKED_RECT) : UploadState :=
  let go := fun (single : Bool) (c_offset bps : Int) =>
    upload_frame single c_offset bps mlock clock f.luma_stride f.chroma_stride
      (src0_of f d) (src1_of f d) (src2_of f d)
      f.luma_width f.luma_height f.chroma_width f.chroma_height
      (d.bits (main_tex_of d)) (d.bits Tex.chroma_tex)
  if hbd_of f then
    (if single_texture_of d then go true 0 2 else go false 0 2)
  else
    (if single_texture_of d then go true 1 1 else go false 1 1)

/-- The texture a store of `upload_frame` goes to. -/
def tex_of_dst (d : Device) : Dst → Tex
  | Dst.mdst => main_tex_of d
  | Dst.cdst => Tex.chroma_tex

/-- A store of `upload_frame` as an event of `update_frame`. -/
def event_of_store (d : Device) (w : Store) : Event :=
  Event.write (tex_of_dst d w.dst) w.idx w.val

/-- Lines 130-187: the upload, the unlocks and `return true`.  `lock_events` are the
lock events that came before. -/
def upload_and_unlock (f : Frame) (d : Device) (mlock clock : D3DLOCKED_RECT)
    (lock_events : List Event) : Outcome :=
  let st := run_upload f d mlock clock
  { ret := true,
    bits := fun t =>
      if t = main_tex_of d then st.mbits
      else if single_texture_of d = false ∧ t = Tex.chroma_tex then st.cbits
      else d.bits t,
    trace := lock_events ++ st.stores.map (event_of_store d)
      ++ [Event.unlockRect (main_tex_of d)]
      ++ (if single_texture_of d then [] else [Event.unlockRect Tex.chroma_tex]) }

/-- The function `update_frame`.  The result is `none` when the call dereferences a null
texture pointer (`main_tex->LockRect` or `chroma_tex->LockRect` on a null pointer), whose
behaviour is undefined. -/
def update_frame (f : Frame) (d : Device) : Option Outcome :=
  let single_texture := single_texture_of d
  let main_tex := main_tex_of d
  if d.present main_tex = false then none
  else
    match d.LockRect main_tex with
    | none =>
      some { ret := false, bits := d.bits,
             trace := [Event.lockRect main_tex false, Event.unlockRect main_tex] }
    | some mlock =>
      if single_texture then
        some (upload_and_unlock f d mlock ⟨0⟩ [Event.lockRect main_tex true])
      else if d.chroma_tex = false then none
      else
        match d.LockRect Tex.chroma_tex with
        | none =>
          some { ret := false, bits := d.bits,
                 trace := [Event.lockRect main_tex true, Event.lockRect Tex.chroma_tex false,
                           Event.unlockRect Tex.chroma_tex] }
        | some clock =>
          some (upload_and_unlock f d mlock clock
            [Event.lockRect main_tex true, Event.lockRect Tex.chroma_tex true])

/-! ## Reading buffers given as lists -/

/-- The buffer holding the samples `l` at offsets `0, 1, ...` and `0` elsewhere. -/
def buf_of_list (l : List Nat) : Buf := fun i => if i < 0 then 0 else l.getD i.toNat 0

/-! ## The stores of a call in closed form

The definitions below describe, without any loop state, the list of stores a call of
`upload_frame` executes; `upload_frame_eq` proves that the loops of the source produce
exactly this list and that the destination memory is the result of replaying it. -/

/-- The memory of destination `d` after the stores `l`, starting from `m`. -/
def apply_stores (d : Dst) (l : List Store) (m : Buf) : Buf :=
  l.foldl (fun m w => if w.dst = d then poke m w.idx w.val else m) m

/-- The state after executing the stores `l` from state `s`, the pointers unchanged. -/
def UploadState.log (s : UploadState) (l : List Store) : UploadState :=
  { s with mbits := apply_stores Dst.mdst l s.mbits,
           cbits := apply_stores Dst.cdst l s.cbits,
           stores := s.stores ++ l }

/-- The stores of one iteration of the inner loop with `single_texture`, from the pointer
values `mp` (`mdst_ptr`) and `p0`, `p1`, `p2` (`src0_ptr`, `src1_ptr`, `src2_ptr`). -/
def single_px_stores (src0 src1 src2 : Buf) (mp p0 p1 p2 : Int) (x : Int) : List Store :=
  [⟨Dst.mdst, mp + (x * 4 + 0), src0 (p0 + x)⟩,
   ⟨Dst.mdst, mp + (x * 4 + 1), src1 (p1 + x)⟩,
   ⟨Dst.mdst, mp + (x * 4 + 2), src2 (p2 + x)⟩]

/-- The stores of one iteration of the inner loop without `single_texture`, from the pointer
values `mp`, `cp` (`mdst_ptr`, `cdst_ptr`) and `p0`, `p1`, `p2`. -/
def dual_px_stores (c_offset : Int) (src0 src1 src2 : Buf) (chroma_width chroma_height : Int)
    (mp cp p0 p1 p2 : Int) (y x : Int) : List Store :=
  ⟨Dst.mdst, mp + x, src0 (p0 + x)⟩ ::
    (if x < chroma_width ∧ y < chroma_height then
      [⟨Dst.cdst, cp + (x * 4 + 0 + c_offset), src1 (p1 + x)⟩,
       ⟨Dst.cdst, cp + (x * 4 + 1 + c_offset), src2 (p2 + x)⟩]
    else [])

/-- How often `increment_chroma_stride` has run when row `y` starts: every earlier row with
`single_texture`, the earlier rows below `chroma_height` otherwise. -/
def chroma_rows (single_texture : Bool) (chroma_height : Int) (y : Nat) : Int :=
  if single_texture then (y : Int) else min (y : Int) (max chroma_height 0)

/-- The arguments of `row_body` that stay fixed during a call. -/
structure Geometry where
  single_texture : Bool
  c_offset : Int
  src0 : Buf
  src1 : Buf
  src2 : Buf
  mdst_stride : Int
  cdst_stride : Int
  luma_stride : Int
  chroma_stride : Int
  luma_width : Int
  chroma_width : Int
  chroma_height : Int

/-- The stores of the iteration for column `x` of row `y`. -/
def Geometry.px_stores (g : Geometry) (y x : Nat) : List Store :=
  let cy := chroma_rows g.single_texture g.chroma_height y
  if g.single_texture then
    single_px_stores g.src0 g.src1 g.src2 (y * g.mdst_stride) (y * g.luma_stride)
      (cy * g.chroma_stride) (cy * g.chroma_stride) x
  else
    dual_px_stores g.c_offset g.src0 g.src1 g.src2 g.chroma_width g.chroma_height
      (y * g.mdst_stride) (cy * g.cdst_stride) (y * g.luma_stride)
      (cy * g.chroma_stride) (cy * g.chroma_stride) y x

/-- The stores of row `y`. -/
def Geometry.row_stores (g : Geometry) (y : Nat) : List Store :=
  (List.range g.luma_width.toNat).flatMap (g.px_stores y)

/-- The stores of the rows `0, ..., k - 1`. -/
def Geometry.stores_upto (g : Geometry) (k : Nat) : List Store :=
  (List.range k).flatMap g.row_stores

/-- The loop body of the source at the fixed arguments `g`. -/
def Geometry.body (g : Geometry) : Int → UploadState → UploadState :=
  row_body g.single_texture g.c_offset g.src0 g.src1 g.src2 g.mdst_stride g.cdst_stride
    g.luma_stride g.chroma_stride g.luma_width g.chroma_width g.chroma_height

/-- The state of `upload_frame` when row `k` starts, in closed form. -/
def Geometry.state_at (g : Geometry) (mbits cbits : Buf) (k : Nat) : UploadState :=
  let ck := chroma_rows g.single_texture g.chroma_height k
  { mdst_ptr := k * g.mdst_stride,
    cdst_ptr := ck * g.cdst_stride,
    src0_ptr := k * g.luma_stride,
    src1_ptr := ck * g.chroma_stride,
    src2_ptr := ck * g.chroma_stride,
    mbits := apply_stores Dst.mdst (g.stores_upto k) mbits,
    cbits := apply_stores Dst.cdst (g.stores_upto k) cbits,
    stores := g.stores_upto k }

/-- The fixed arguments of the loop of a call of `upload_frame`. -/
def geometry_of (single_texture : Bool) (c_offset bps : Int)
    (mlock clock : D3DLOCKED_RECT) (luma_stride chroma_stride : Int)
    (src0 src1 src2 : Buf) (luma_width chroma_width chroma_height : Int) : Geometry :=
  { single_texture := single_texture, c_offset := c_offset,
    src0 := src0, src1 := src1, src2 := src2,
    mdst_stride := mdst_stride_of bps mlock,
    cdst_stride := cdst_stride_of single_texture bps clock,
    luma_stride := elem_stride bps luma_stride,
    chroma_stride := elem_stride bps chroma_stride,
    luma_width := luma_width, chroma_width := chroma_width,
    chroma_height := chroma_height }

/-- No two stores of `l` to destination `d` go to the same offset. -/
def NoClash (d : Dst) (l : List Store) : Prop :=
  l.Pairwise (fun a b => a.dst = d → b.dst = d → a.idx ≠ b.idx)

/-- How many stores of `l` go to offset `i` of destination `d`. -/
def store_count (d : Dst) (i : Int) (l : List Store) : Nat :=
  l.countP (fun w => decide (w.dst = d ∧ w.idx = i))

/-! ## Vocabulary for the properties of `update_frame` -/

/-- The template argument `bps` of the instantiation chosen at lines 140-144. -/
def bps_of (f : Frame) : Int := if hbd_of f then 2 else 1

/-- The template argument `c_offset` of the instantiation chosen at lines 140-144. -/
def c_offset_of (f : Frame) : Int := if hbd_of f then 0 else 1

/-- The fixed loop arguments of the `upload_frame` call made by `update_frame`. -/
def call_geometry (f : Frame) (d : Device) (mlock clock : D3DLOCKED_RECT) : Geometry :=
  geometry_of (single_texture_of d) (c_offset_of f) (bps_of f) mlock clock
    f.luma_stride f.chroma_stride (src0_of f d) (src1_of f d) (src2_of f d)
    f.luma_width f.chroma_width f.chroma_height

/-- The number of successful `LockRect` calls on texture `t`. -/
def acquired (t : Tex) (trace : List Event) : Nat := trace.count (Event.lockRect t true)

/-- The number of `UnlockRect` calls on texture `t`. -/
def released (t : Tex) (trace : List Event) : Nat := trace.count (Event.unlockRect t)

/-- Whether texture `t` is locked after the events `trace`, when it was not locked before:
a successful `LockRect` locks it, an `UnlockRect` unlocks it. -/
def locked_after (t : Tex) (trace : List Event) : Bool :=
  trace.foldl (fun b e =>
    match e with
    | Event.lockRect t' true => if t' = t then true else b
    | Event.unlockRect t' => if t' = t then false else b
    | _ => b) false

/-- Whether offset `i` of texture `t` is stored to during the call. -/
def written (t : Tex) (i : Int) (trace : List Event) : Bool :=
  trace.any (fun e =>
    match e with
    | Event.write t' i' _ => decide (t' = t ∧ i' = i)
    | _ => false)

/-! ## Concrete inputs -/

/-- A device where only `rgb_tex` is passed; every `LockRect` succeeds with the given pitch
and all texture memory holds `0`. -/
def rgb_device (pitch : Int) : Device :=
  { luma_tex := false, chroma_tex := false, yuv444_tex := false, rgb_tex := true,
    LockRect := fun _ => some ⟨pitch⟩, bits := fun _ _ => 0 }

/-- An 8-bit 2x2 frame whose luma rows are 4 bytes apart and whose chroma rows are 2 bytes
apart.  Row `y` of `plane0` is at `4 * y`, row `y` of `plane1` and `plane2` at `2 * y`:
`plane0 = [[1, 2], [3, 4]]`, `plane1 = [[5, 6], [7, 8]]`, `plane2 = [[9, 10], [11, 12]]`;
the other samples of the buffers are padding. -/
def frame_luma4_chroma2 : Frame :=
  { plane0_read := buf_of_list [1, 2, 90, 91, 3, 4, 92, 93],
    plane1_read := buf_of_list [5, 6, 7, 8, 30, 31, 32, 33],
    plane2_read := buf_of_list [9, 10, 11, 12, 20, 21, 22, 23],
    bit_depth := 8, luma_width := 2, luma_height := 2, luma_stride := 4,
    chroma_width := 2, chroma_height := 2, chroma_stride := 2 }

/-- A device where `luma_tex` and `chroma_tex` are passed; `LockRect` succeeds on both, with
the given pitches, and all texture memory holds `0`. -/
def dual_device (luma_pitch chroma_pitch : Int) : Device :=
  { luma_tex := true, chroma_tex := true, yuv444_tex := false, rgb_tex := false,
    LockRect := fun t => if t = Tex.luma_tex then some ⟨luma_pitch⟩ else some ⟨chroma_pitch⟩,
    bits := fun _ _ => 0 }

/-- A 2x2 frame with full-resolution chroma and all rows 2 samples apart:
`plane0 = [[1, 2], [3, 4]]`, `plane1 = [[5, 6], [7, 8]]`, `plane2 = [[9, 10], [11, 12]]`.
`bytes` is the sample width: the strides are `2 * bytes` bytes. -/
def frame_2x2 (bit_depth bytes : Int) : Frame :=
  { plane0_read := buf_of_list [1, 2, 3, 4],
    plane1_read := buf_of_list [5, 6, 7, 8],
    plane2_read := buf_of_list [9, 10, 11, 12],
    bit_depth := bit_depth, luma_width := 2, luma_height := 2, luma_stride := 2 * bytes,
    chroma_width := 2, chroma_height := 2, chroma_stride := 2 * bytes }

/-- The buffer that holds `0` everywhere. -/
def zero_buf : Buf := fun _ => 0

/-- A device where `luma_tex` and `chroma_tex` are passed, `LockRect` succeeds on `luma_tex`
with the given pitch and fails on `chroma_tex`; all texture memory holds `0`. -/
def dual_device_chroma_fails (luma_pitch : Int) : Device :=
  { luma_tex := true, chroma_tex := true, yuv444_tex := false, rgb_tex := false,
    LockRect := fun t => if t = Tex.luma_tex then some ⟨luma_pitch⟩ else none,
    bits := fun _ _ => 0 }

/-- A device where only `rgb_tex` is passed and `LockRect` fails; all texture memory holds
`0`. -/
def rgb_device_lock_fails : Device :=
  { luma_tex := false, chroma_tex := false, yuv444_tex := false, rgb_tex := true,
    LockRect := fun _ => none, bits := fun _ _ => 0 }

/-! ## Further vocabulary -/

/-- The texture an event concerns. -/
def Event.tex : Event → Tex
  | Event.lockRect t _ => t
  | Event.unlockRect t => t
  | Event.write t _ _ => t

/-- A device where `yuv444_tex` is passed (and `rgb_tex` too when `with_rgb`); every
`LockRect` succeeds with the given pitch and all texture memory holds `0`. -/
def yuv444_device (with_rgb : Bool) (pitch : Int) : Device :=
  { luma_tex := false, chroma_tex := false, yuv444_tex := true, rgb_tex := with_rgb,
    LockRect := fun _ => some ⟨pitch⟩, bits := fun _ _ => 0 }

/-- Whether element `idx` (the bytes `bps * idx` up to `bps * (idx + 1)`) lies inside a locked
buffer of `pitch * rows` bytes. -/
def in_locked_buffer (bps pitch rows idx : Int) : Bool :=
  decide (0 ≤ bps * idx ∧ bps * (idx + 1) ≤ pitch * rows)

/-- How many stores of `l` go to destination `d`. -/
def stores_to (d : Dst) (l : List Store) : Nat :=
  l.countP (fun w => decide (w.dst = d))

/-- The stores of a call as pairs of offset and value, in program order, without the
texture they go to. -/
def writes_of (trace : List Event) : List (Int × Nat) :=
  trace.filterMap (fun e =>
    match e with
    | Event.write _ i v => some (i, v)
    | _ => none)

/-- An 8-bit frame of one pixel: `plane0 = [[1]]`, `plane1 = [[2]]`, `plane2 = [[3]]`, all
strides 1. -/
def frame_1x1 : Frame :=
  { plane0_read := buf_of_list [1], plane1_read := buf_of_list [2],
    plane2_read := buf_of_list [3],
    bit_depth := 8, luma_width := 1, luma_height := 1, luma_stride := 1,
    chroma_width := 1, chroma_height := 1, chroma_stride := 1 }

/-! ## Loop lemmas -/

theorem apply_stores_nil (d : Dst) (m : Buf) : apply_stores d [] m = m := rfl

theorem apply_stores_append (d : Dst) (l₁ l₂ : List Store) (m : Buf) :
    apply_stores d (l₁ ++ l₂) m = apply_stores d l₂ (apply_stores d l₁ m) := by
  simp [apply_stores, List.foldl_append]

theorem log_nil (s : UploadState) : s.log [] = s := by
  cases s; simp [UploadState.log, apply_stores]

theorem log_log (s : UploadState) (l₁ l₂ : List Store) :
    (s.log l₁).log l₂ = s.log (l₁ ++ l₂) := by
  simp [UploadState.log, apply_stores_append, List.append_assoc]

theorem single_px_eq (src0 src1 src2 : Buf) (x : Int) (s : UploadState) :
    single_px src0 src1 src2 x s =
      s.log (single_px_stores src0 src1 src2 s.mdst_ptr s.src0_ptr s.src1_ptr s.src2_ptr x) := by
  simp [single_px, single_px_stores, UploadState.put_m, UploadState.log, apply_stores]

theorem dual_px_eq (c_offset : Int) (src0 src1 src2 : Buf) (cw ch y x : Int)
    (s : UploadState) :
    dual_px c_offset src0 src1 src2 cw ch y x s =
      s.log (dual_px_stores c_offset src0 src1 src2 cw ch s.mdst_ptr s.cdst_ptr s.src0_ptr
        s.src1_ptr s.src2_ptr y x) := by
  unfold dual_px dual_px_stores
  split <;>
    simp [UploadState.put_m, UploadState.put_c, UploadState.log, apply_stores]

theorem forLoop_single_px (src0 src1 src2 : Buf) (n : Nat) (s : UploadState) :
    forLoop (single_px src0 src1 src2) n s =
      s.log ((List.range n).flatMap (fun x : Nat =>
        single_px_stores src0 src1 src2 s.mdst_ptr s.src0_ptr s.src1_ptr s.src2_ptr x)) := by
  induction n with
  | zero => simp [forLoop, log_nil]
  | succ n ih =>
    rw [forLoop, ih, single_px_eq, log_log, List.range_succ, List.flatMap_append]
    simp [UploadState.log]

theorem forLoop_dual_px (c_offset : Int) (src0 src1 src2 : Buf) (cw ch y : Int) (n : Nat)
    (s : UploadState) :
    forLoop (dual_px c_offset src0 src1 src2 cw ch y) n s =
      s.log ((List.range n).flatMap (fun x : Nat =>
        dual_px_stores c_offset src0 src1 src2 cw ch s.mdst_ptr s.cdst_ptr s.src0_ptr
          s.src1_ptr s.src2_ptr y x)) := by
  induction n with
  | zero => simp [forLoop, log_nil]
  | succ n ih =>
    rw [forLoop, ih, dual_px_eq, log_log, List.range_succ, List.flatMap_append]
    simp [UploadState.log]


theorem stores_upto_succ (g : Geometry) (k : Nat) :
    g.stores_upto (k + 1) = g.stores_upto k ++ g.row_stores k := by
  simp [Geometry.stores_upto, List.range_succ, List.flatMap_append]

theorem chroma_rows_succ_single (ch : Int) (k : Nat) :
    chroma_rows true ch (k + 1) = chroma_rows true ch k + 1 := by
  simp [chroma_rows]

theorem chroma_rows_succ_dual (ch : Int) (k : Nat) :
    chroma_rows false ch (k + 1) =
      if (k : Int) < ch then chroma_rows false ch k + 1 else chroma_rows false ch k := by
  simp only [chroma_rows, Bool.false_eq_true, if_false]
  push_cast
  split <;> omega

theorem row_stores_single (g : Geometry) (h : g.single_texture = true) (y : Nat) :
    g.row_stores y = (List.range g.luma_width.toNat).flatMap (fun x : Nat =>
      single_px_stores g.src0 g.src1 g.src2 (y * g.mdst_stride) (y * g.luma_stride)
        (y * g.chroma_stride) (y * g.chroma_stride) x) := by
  unfold Geometry.row_stores
  congr 1
  funext x
  simp [Geometry.px_stores, h, chroma_rows]

theorem row_stores_dual (g : Geometry) (h : g.single_texture = false) (y : Nat) :
    g.row_stores y = (List.range g.luma_width.toNat).flatMap (fun x : Nat =>
      dual_px_stores g.c_offset g.src0 g.src1 g.src2 g.chroma_width g.chroma_height
        (y * g.mdst_stride) (chroma_rows false g.chroma_height y * g.cdst_stride)
        (y * g.luma_stride) (chroma_rows false g.chroma_height y * g.chroma_stride)
        (chroma_rows false g.chroma_height y * g.chroma_stride) y x) := by
  unfold Geometry.row_stores
  congr 1
  funext x
  simp [Geometry.px_stores, h]

theorem body_state_at (g : Geometry) (m c : Buf) (k : Nat) :
    g.body k (g.state_at m c k) = g.state_at m c (k + 1) := by
  cases h : g.single_texture
  · have hr := row_stores_dual g h k
    simp only [Geometry.body, row_body, for_lt, forLoop_dual_px, h, Bool.false_eq_true,
      if_false]
    simp only [Geometry.state_at, h, stores_upto_succ, apply_stores_append,
      chroma_rows_succ_dual, hr, UploadState.log, increment_chroma_stride]
    by_cases hk : (k : Int) < g.chroma_height
    · simp only [hk, if_true, UploadState.mk.injEq, and_true, true_and]
      push_cast
      refine ⟨by ring, by ring, by ring, by ring, by ring⟩
    · simp only [hk, if_false, UploadState.mk.injEq, and_true, true_and]
      push_cast
      refine ⟨by ring, by ring⟩
  · have hr := row_stores_single g h k
    simp only [Geometry.body, row_body, for_lt, forLoop_single_px, h, if_true]
    simp only [Geometry.state_at, h, stores_upto_succ, apply_stores_append,
      chroma_rows_succ_single, hr, UploadState.log, increment_chroma_stride, chroma_rows,
      if_true, UploadState.mk.injEq, and_true, true_and]
    push_cast
    refine ⟨by ring, by ring, by ring, by ring, by ring⟩


theorem forLoop_body (g : Geometry) (m c : Buf) (k : Nat) :
    forLoop g.body k (g.state_at m c 0) = g.state_at m c k := by
  induction k with
  | zero => rfl
  | succ k ih => rw [forLoop, ih, body_state_at]

theorem state_at_zero (g : Geometry) (m c : Buf) :
    g.state_at m c 0 =
      { mdst_ptr := 0, cdst_ptr := 0, src0_ptr := 0, src1_ptr := 0, src2_ptr := 0,
        mbits := m, cbits := c, stores := [] } := by
  have h0 : chroma_rows g.single_texture g.chroma_height 0 = 0 := by
    unfold chroma_rows
    split
    · rfl
    · simp
  simp [Geometry.state_at, Geometry.stores_upto, apply_stores, h0]

/-- The loops of `upload_frame` execute exactly the stores of the closed form, and leave
the pointers and the destination memory as the closed form says. -/
theorem upload_frame_eq (single_texture : Bool) (c_offset bps : Int)
    (mlock clock : D3DLOCKED_RECT) (luma_stride chroma_stride : Int)
    (src0 src1 src2 : Buf) (luma_width luma_height chroma_width chroma_height : Int)
    (mbits cbits : Buf) :
    upload_frame single_texture c_offset bps mlock clock luma_stride chroma_stride
        src0 src1 src2 luma_width luma_height chroma_width chroma_height mbits cbits =
      (geometry_of single_texture c_offset bps mlock clock luma_stride chroma_stride
        src0 src1 src2 luma_width chroma_width chroma_height).state_at mbits cbits
        luma_height.toNat := by
  rw [← forLoop_body, state_at_zero]
  rfl

theorem apply_stores_of_not_hit (d : Dst) (i : Int) (l : List Store) (m : Buf)
    (h : ∀ w ∈ l, w.dst = d → w.idx ≠ i) : apply_stores d l m i = m i := by
  induction l using List.reverseRecOn with
  | nil => rfl
  | append_singleton l w ih =>
    rw [apply_stores_append]
    have hw := h w (by simp)
    have hl := ih (fun w' hw' => h w' (by simp [hw']))
    by_cases hd : w.dst = d
    · have hne : i ≠ w.idx := fun e => hw hd e.symm
      simp [apply_stores, hd, poke, hne] at hl ⊢
      exact hl
    · simp [apply_stores, hd] at hl ⊢
      exact hl

theorem apply_stores_of_hit (d : Dst) (i : Int) (v : Nat) (l : List Store) (m : Buf)
    (hex : ∃ w ∈ l, w.dst = d ∧ w.idx = i)
    (hall : ∀ w ∈ l, w.dst = d → w.idx = i → w.val = v) : apply_stores d l m i = v := by
  induction l using List.reverseRecOn with
  | nil => simp at hex
  | append_singleton l w ih =>
    rw [apply_stores_append]
    by_cases hw : w.dst = d ∧ w.idx = i
    · have hv := hall w (by simp) hw.1 hw.2
      simp [apply_stores, hw.1, poke, hw.2, hv]
    · have hex' : ∃ w' ∈ l, w'.dst = d ∧ w'.idx = i := by
        obtain ⟨w', hw', hd'⟩ := hex
        rcases List.mem_append.1 hw' with h1 | h1
        · exact ⟨w', h1, hd'⟩
        · simp at h1; subst h1; exact absurd hd' hw
      have hl := ih hex' (fun w' hw' => hall w' (by simp [hw']))
      by_cases hd : w.dst = d
      · have hne : i ≠ w.idx := fun e => hw ⟨hd, e.symm⟩
        simp [apply_stores, hd, poke, hne] at hl ⊢
        exact hl
      · simp [apply_stores, hd] at hl ⊢
        exact hl

theorem store_count_of_noClash (d : Dst) (l : List Store) (h : NoClash d l) (w : Store)
    (hw : w ∈ l) (hd : w.dst = d) : store_count d w.idx l = 1 := by
  induction l with
  | nil => simp at hw
  | cons a l ih =>
    unfold NoClash at h
    rw [List.pairwise_cons] at h
    unfold store_count at ih ⊢
    rw [List.countP_cons]
    rcases List.mem_cons.1 hw with rfl | hmem
    · have hz : List.countP (fun w' => decide (w'.dst = d ∧ w'.idx = w.idx)) l = 0 := by
        rw [List.countP_eq_zero]
        intro b hb
        have := h.1 b hb hd
        simp only [decide_eq_true_eq, not_and]
        intro hbd e
        exact this hbd e.symm
      rw [hz]; simp [hd]
    · have hne : ¬ (a.dst = d ∧ a.idx = w.idx) := fun e => h.1 w hmem e.1 hd e.2
      rw [ih h.2 hmem]
      simp [hne]

theorem apply_stores_of_noClash (d : Dst) (l : List Store) (m : Buf) (h : NoClash d l)
    (w : Store) (hw : w ∈ l) (hd : w.dst = d) : apply_stores d l m w.idx = w.val := by
  apply apply_stores_of_hit d w.idx w.val l m ⟨w, hw, hd, rfl⟩
  intro w' hw' hd' hi'
  by_contra hne
  have hww : w' ≠ w := fun e => hne (by rw [e])
  have hsymm : Symmetric (fun a b : Store => a.dst = d → b.dst = d → a.idx ≠ b.idx) :=
    fun a b hab hb ha e => hab ha hb e.symm
  exact List.Pairwise.forall hsymm h hw' hw hww hd' hd hi'


theorem grid_lt (S q1 q2 y1 y2 : Int) (h : y1 < y2) (hq0 : 0 ≤ q1) (hq1 : q1 < S)
    (hq2 : 0 ≤ q2) : y1 * S + q1 < y2 * S + q2 := by
  have h1 : (0 : Int) ≤ (y2 - y1 - 1) * S := mul_nonneg (by omega) (by omega)
  nlinarith

theorem grid_inj (S q1 q2 y1 y2 : Int) (h10 : 0 ≤ q1) (h11 : q1 < S) (h20 : 0 ≤ q2)
    (h21 : q2 < S) (e : y1 * S + q1 = y2 * S + q2) : y1 = y2 ∧ q1 = q2 := by
  rcases lt_trichotomy y1 y2 with h | h | h
  · have := grid_lt S q1 q2 y1 y2 h h10 h11 h20; omega
  · subst h; exact ⟨rfl, by omega⟩
  · have := grid_lt S q2 q1 y2 y1 h h20 h21 h10; omega

theorem mem_stores_upto (g : Geometry) (k : Nat) (w : Store) :
    w ∈ g.stores_upto k ↔
      ∃ y : Nat, y < k ∧ ∃ x : Nat, (x : Int) < g.luma_width ∧ w ∈ g.px_stores y x := by
  simp only [Geometry.stores_upto, Geometry.row_stores, List.mem_flatMap, List.mem_range]
  constructor
  · rintro ⟨y, hy, x, hx, hw⟩
    exact ⟨y, hy, x, by omega, hw⟩
  · rintro ⟨y, hy, x, hx, hw⟩
    exact ⟨y, hy, x, by omega, hw⟩

/-- Stores laid out on a grid (row `y` at `y * S`, column `x` in a slot of width `a` at
`c + a * x`, fewer than `B` columns, `a * B ≤ S`) never hit the same offset twice. -/
theorem noClash_stores_upto (g : Geometry) (d : Dst) (S a c B : Int) (ha : 0 < a)
    (hB : a * B ≤ S)
    (hform : ∀ (y x : Nat) (w : Store), (x : Int) < g.luma_width → w ∈ g.px_stores y x →
      w.dst = d → (x : Int) < B ∧ ∃ q, 0 ≤ q ∧ q < a ∧ w.idx = y * S + (a * x + q) + c)
    (hpx : ∀ y x, NoClash d (g.px_stores y x)) (k : Nat) : NoClash d (g.stores_upto k) := by
  have hr : ∀ x : Nat, x ∈ List.range g.luma_width.toNat → (x : Int) < g.luma_width := by
    intro x hx
    have := List.mem_range.1 hx
    omega
  unfold NoClash Geometry.stores_upto
  rw [List.pairwise_flatMap]
  constructor
  · intro y _
    unfold Geometry.row_stores
    rw [List.pairwise_flatMap]
    refine ⟨fun x _ => hpx y x, ?_⟩
    apply (List.pairwise_lt_range _).imp_of_mem
    intro x1 x2 hm1 hm2 hlt w1 hw1 w2 hw2 hd1 hd2
    obtain ⟨_, q1, h10, h11, e1⟩ := hform y x1 w1 (hr x1 hm1) hw1 hd1
    obtain ⟨_, q2, h20, h21, e2⟩ := hform y x2 w2 (hr x2 hm2) hw2 hd2
    have h1 : (0 : Int) ≤ a * ((x2 : Int) - x1 - 1) := mul_nonneg (by omega) (by omega)
    rw [e1, e2]
    intro e
    nlinarith
  · apply (List.pairwise_lt_range _).imp
    intro y1 y2 hlt w1 hw1 w2 hw2 hd1 hd2
    obtain ⟨x1, hm1, hx1⟩ := List.mem_flatMap.1 hw1
    obtain ⟨x2, hm2, hx2⟩ := List.mem_flatMap.1 hw2
    obtain ⟨hb1, q1, h10, h11, e1⟩ := hform y1 x1 w1 (hr x1 hm1) hx1 hd1
    obtain ⟨hb2, q2, h20, h21, e2⟩ := hform y2 x2 w2 (hr x2 hm2) hx2 hd2
    have h1 : (0 : Int) ≤ a * (B - x1 - 1) := mul_nonneg (by omega) (by omega)
    have h2 : (0 : Int) ≤ a * (x1 : Int) := mul_nonneg (by omega) (by omega)
    have h3 : (0 : Int) ≤ a * (x2 : Int) := mul_nonneg (by omega) (by omega)
    have := grid_lt S (a * x1 + q1) (a * x2 + q2) y1 y2 (by exact_mod_cast hlt) (by omega)
      (by nlinarith) (by omega)
    rw [e1, e2]
    omega

theorem chroma_rows_dual_of_lt (ch : Int) (y : Nat) (h : (y : Int) < ch) :
    chroma_rows false ch y = y := by
  simp only [chroma_rows, Bool.false_eq_true, if_false]
  omega

theorem mem_px_single (g : Geometry) (h : g.single_texture = true) (y x : Nat) (w : Store) :
    w ∈ g.px_stores y x ↔
      w = ⟨Dst.mdst, y * g.mdst_stride + (x * 4 + 0), g.src0 (y * g.luma_stride + x)⟩ ∨
      w = ⟨Dst.mdst, y * g.mdst_stride + (x * 4 + 1), g.src1 (y * g.chroma_stride + x)⟩ ∨
      w = ⟨Dst.mdst, y * g.mdst_stride + (x * 4 + 2), g.src2 (y * g.chroma_stride + x)⟩ := by
  simp [Geometry.px_stores, h, single_px_stores, chroma_rows]

theorem mem_px_dual (g : Geometry) (h : g.single_texture = false) (y x : Nat) (w : Store) :
    w ∈ g.px_stores y x ↔
      w = ⟨Dst.mdst, y * g.mdst_stride + x, g.src0 (y * g.luma_stride + x)⟩ ∨
      (((x : Int) < g.chroma_width ∧ (y : Int) < g.chroma_height) ∧
        (w = ⟨Dst.cdst, y * g.cdst_stride + (x * 4 + 0 + g.c_offset),
              g.src1 (y * g.chroma_stride + x)⟩ ∨
         w = ⟨Dst.cdst, y * g.cdst_stride + (x * 4 + 1 + g.c_offset),
              g.src2 (y * g.chroma_stride + x)⟩)) := by
  by_cases hc : (x : Int) < g.chroma_width ∧ (y : Int) < g.chroma_height
  · simp [Geometry.px_stores, h, dual_px_stores, hc, chroma_rows_dual_of_lt _ _ hc.2]
  · simp [Geometry.px_stores, h, dual_px_stores, hc]

theorem noClash_single (g : Geometry) (h : g.single_texture = true)
    (hB : 4 * g.luma_width ≤ g.mdst_stride) (k : Nat) :
    NoClash Dst.mdst (g.stores_upto k) := by
  refine noClash_stores_upto g Dst.mdst g.mdst_stride 4 0 g.luma_width (by norm_num) hB ?_ ?_ k
  · intro y x w hx hmem _
    refine ⟨hx, ?_⟩
    rcases (mem_px_single g h y x w).1 hmem with rfl | rfl | rfl
    · exact ⟨0, by norm_num, by norm_num, by simp only; ring⟩
    · exact ⟨1, by norm_num, by norm_num, by simp only; ring⟩
    · exact ⟨2, by norm_num, by norm_num, by simp only; ring⟩
  · intro y x
    simp [NoClash, Geometry.px_stores, h, single_px_stores]

theorem noClash_dual_m (g : Geometry) (h : g.single_texture = false)
    (hB : g.luma_width ≤ g.mdst_stride) (k : Nat) :
    NoClash Dst.mdst (g.stores_upto k) := by
  refine noClash_stores_upto g Dst.mdst g.mdst_stride 1 0 g.luma_width (by norm_num)
    (by omega) ?_ ?_ k
  · intro y x w hx hmem hd
    refine ⟨hx, ?_⟩
    rcases (mem_px_dual g h y x w).1 hmem with rfl | ⟨_, rfl | rfl⟩
    · exact ⟨0, by norm_num, by norm_num, by simp only; ring⟩
    · simp at hd
    · simp at hd
  · intro y x
    unfold NoClash Geometry.px_stores dual_px_stores
    simp only [h, Bool.false_eq_true, if_false]
    split <;> simp

theorem noClash_dual_c (g : Geometry) (h : g.single_texture = false)
    (hB : 4 * min g.chroma_width g.luma_width ≤ g.cdst_stride) (k : Nat) :
    NoClash Dst.cdst (g.stores_upto k) := by
  refine noClash_stores_upto g Dst.cdst g.cdst_stride 4 g.c_offset
    (min g.chroma_width g.luma_width) (by norm_num) hB ?_ ?_ k
  · intro y x w hx hmem hd
    rcases (mem_px_dual g h y x w).1 hmem with rfl | ⟨hc, rfl | rfl⟩
    · simp at hd
    · exact ⟨by omega, 0, by norm_num, by norm_num, by simp only; ring⟩
    · exact ⟨by omega, 1, by norm_num, by norm_num, by simp only; ring⟩
  · intro y x
    unfold NoClash Geometry.px_stores dual_px_stores
    simp only [h, Bool.false_eq_true, if_false]
    split <;> simp

/-! ## `update_frame`, path by path -/

theorem run_upload_eq (f : Frame) (d : Device) (mlock clock : D3DLOCKED_RECT) :
    run_upload f d mlock clock =
      (call_geometry f d mlock clock).state_at (d.bits (main_tex_of d))
        (d.bits Tex.chroma_tex) f.luma_height.toNat := by
  unfold run_upload call_geometry bps_of c_offset_of
  cases hbd_of f <;> cases single_texture_of d <;> simp [upload_frame_eq]

theorem present_main_of_single (d : Device) (h : single_texture_of d = true) :
    d.present (main_tex_of d) = true := by
  unfold single_texture_of at h
  unfold main_tex_of single_texture_of
  cases hy : d.yuv444_tex <;> cases hr : d.rgb_tex <;> simp_all [Device.present]

theorem update_frame_main_fail (f : Frame) (d : Device)
    (hp : d.present (main_tex_of d) = true) (hl : d.LockRect (main_tex_of d) = none) :
    update_frame f d = some
      { ret := false,
        bits := d.bits,
        trace := [Event.lockRect (main_tex_of d) false, Event.unlockRect (main_tex_of d)] } := by
  simp [update_frame, hp, hl]

theorem update_frame_single_ok (f : Frame) (d : Device) (mlock : D3DLOCKED_RECT)
    (hs : single_texture_of d = true) (hl : d.LockRect (main_tex_of d) = some mlock) :
    update_frame f d =
      some (upload_and_unlock f d mlock ⟨0⟩ [Event.lockRect (main_tex_of d) true]) := by
  simp [update_frame, present_main_of_single d hs, hl, hs]

theorem update_frame_chroma_fail (f : Frame) (d : Device) (mlock : D3DLOCKED_RECT)
    (hs : single_texture_of d = false) (hp : d.luma_tex = true) (hc : d.chroma_tex = true)
    (hl : d.LockRect Tex.luma_tex = some mlock) (hcl : d.LockRect Tex.chroma_tex = none) :
    update_frame f d = some
      { ret := false,
        bits := d.bits,
        trace := [Event.lockRect Tex.luma_tex true, Event.lockRect Tex.chroma_tex false,
                  Event.unlockRect Tex.chroma_tex] } := by
  have hm : main_tex_of d = Tex.luma_tex := by simp [main_tex_of, hs]
  simp [update_frame, hm, Device.present, hp, hl, hs, hc, hcl]

theorem update_frame_dual_ok (f : Frame) (d : Device) (mlock clock : D3DLOCKED_RECT)
    (hs : single_texture_of d = false) (hp : d.luma_tex = true) (hc : d.chroma_tex = true)
    (hl : d.LockRect Tex.luma_tex = some mlock)
    (hcl : d.LockRect Tex.chroma_tex = some clock) :
    update_frame f d = some (upload_and_unlock f d mlock clock
      [Event.lockRect Tex.luma_tex true, Event.lockRect Tex.chroma_tex true]) := by
  have hm : main_tex_of d = Tex.luma_tex := by simp [main_tex_of, hs]
  simp [update_frame, hm, Device.present, hp, hl, hs, hc, hcl]

theorem upload_and_unlock_bits_main (f : Frame) (d : Device) (mlock clock : D3DLOCKED_RECT)
    (evs : List Event) :
    (upload_and_unlock f d mlock clock evs).bits (main_tex_of d) =
      ((call_geometry f d mlock clock).state_at (d.bits (main_tex_of d))
        (d.bits Tex.chroma_tex) f.luma_height.toNat).mbits := by
  simp [upload_and_unlock, run_upload_eq]

theorem upload_and_unlock_bits_chroma (f : Frame) (d : Device) (mlock clock : D3DLOCKED_RECT)
    (evs : List Event) (hs : single_texture_of d = false) :
    (upload_and_unlock f d mlock clock evs).bits Tex.chroma_tex =
      ((call_geometry f d mlock clock).state_at (d.bits (main_tex_of d))
        (d.bits Tex.chroma_tex) f.luma_height.toNat).cbits := by
  have hm : main_tex_of d = Tex.luma_tex := by simp [main_tex_of, hs]
  simp [upload_and_unlock, run_upload_eq, hs, hm]

theorem upload_and_unlock_trace (f : Frame) (d : Device) (mlock clock : D3DLOCKED_RECT)
    (evs : List Event) :
    (upload_and_unlock f d mlock clock evs).trace =
      evs ++ ((call_geometry f d mlock clock).stores_upto f.luma_height.toNat).map
          (event_of_store d)
        ++ [Event.unlockRect (main_tex_of d)]
        ++ (if single_texture_of d then [] else [Event.unlockRect Tex.chroma_tex]) := by
  simp [upload_and_unlock, run_upload_eq, Geometry.state_at]

theorem single_of_present (d : Device) (hs : d.yuv444_tex = true ∨ d.rgb_tex = true) :
    single_texture_of d = true := by
  unfold single_texture_of
  rcases hs with h | h <;> simp [h]

theorem hbd_of_gt (f : Frame) (h : f.bit_depth > 8) : hbd_of f = true := by
  simp [hbd_of, h]

theorem hbd_of_le (f : Frame) (h : f.bit_depth ≤ 8) : hbd_of f = false := by
  simp [hbd_of]; omega

/-! ## Contents of the destination after `upload_frame` -/

theorem state_at_mbits_single (g : Geometry) (h : g.single_texture = true)
    (hB : 4 * g.luma_width ≤ g.mdst_stride) (m c : Buf) (k y x : Nat) (hy : y < k)
    (hx : (x : Int) < g.luma_width) :
    (g.state_at m c k).mbits (y * g.mdst_stride + (x * 4 + 0)) =
        g.src0 (y * g.luma_stride + x) ∧
    (g.state_at m c k).mbits (y * g.mdst_stride + (x * 4 + 1)) =
        g.src1 (y * g.chroma_stride + x) ∧
    (g.state_at m c k).mbits (y * g.mdst_stride + (x * 4 + 2)) =
        g.src2 (y * g.chroma_stride + x) ∧
    (g.state_at m c k).mbits (y * g.mdst_stride + (x * 4 + 3)) =
        m (y * g.mdst_stride + (x * 4 + 3)) := by
  have hnc := noClash_single g h hB k
  have hmem : ∀ w, w ∈ g.px_stores y x → w ∈ g.stores_upto k := fun w hw =>
    (mem_stores_upto g k w).2 ⟨y, hy, x, hx, hw⟩
  have hpx := mem_px_single g h y x
  refine ⟨?_, ?_, ?_, ?_⟩
  · exact apply_stores_of_noClash Dst.mdst _ m hnc
      ⟨Dst.mdst, y * g.mdst_stride + (x * 4 + 0), g.src0 (y * g.luma_stride + x)⟩
      (hmem _ ((hpx _).2 (Or.inl rfl))) rfl
  · exact apply_stores_of_noClash Dst.mdst _ m hnc
      ⟨Dst.mdst, y * g.mdst_stride + (x * 4 + 1), g.src1 (y * g.chroma_stride + x)⟩
      (hmem _ ((hpx _).2 (Or.inr (Or.inl rfl)))) rfl
  · exact apply_stores_of_noClash Dst.mdst _ m hnc
      ⟨Dst.mdst, y * g.mdst_stride + (x * 4 + 2), g.src2 (y * g.chroma_stride + x)⟩
      (hmem _ ((hpx _).2 (Or.inr (Or.inr rfl)))) rfl
  · apply apply_stores_of_not_hit
    intro w hw _ e
    obtain ⟨y', _, x', hx', hw'⟩ := (mem_stores_upto g k w).1 hw
    have key : ∀ j : Int, 0 ≤ j → j ≤ 2 →
        (y' : Int) * g.mdst_stride + (x' * 4 + j) ≠ y * g.mdst_stride + (x * 4 + 3) := by
      intro j hj0 hj2 e'
      have := grid_inj g.mdst_stride (x' * 4 + j) (x * 4 + 3) y' y (by omega) (by omega)
        (by omega) (by omega) e'
      have h2 : (y' : Int) = y := this.1
      omega
    rcases (mem_px_single g h y' x' w).1 hw' with rfl | rfl | rfl
    · exact key 0 (by norm_num) (by norm_num) e
    · exact key 1 (by norm_num) (by norm_num) e
    · exact key 2 (by norm_num) (by norm_num) e

theorem state_at_dual_m (g : Geometry) (h : g.single_texture = false)
    (hB : g.luma_width ≤ g.mdst_stride) (m c : Buf) (k y x : Nat) (hy : y < k)
    (hx : (x : Int) < g.luma_width) :
    store_count Dst.mdst (y * g.mdst_stride + x) (g.stores_upto k) = 1 ∧
    (⟨Dst.mdst, y * g.mdst_stride + x, g.src0 (y * g.luma_stride + x)⟩ : Store) ∈
      g.stores_upto k ∧
    (g.state_at m c k).mbits (y * g.mdst_stride + x) = g.src0 (y * g.luma_stride + x) := by
  have hnc := noClash_dual_m g h hB k
  have hmem : (⟨Dst.mdst, y * g.mdst_stride + x, g.src0 (y * g.luma_stride + x)⟩ : Store) ∈
      g.stores_upto k :=
    (mem_stores_upto g k _).2 ⟨y, hy, x, hx, (mem_px_dual g h y x _).2 (Or.inl rfl)⟩
  exact ⟨store_count_of_noClash Dst.mdst _ hnc _ hmem rfl, hmem,
    apply_stores_of_noClash Dst.mdst _ m hnc _ hmem rfl⟩

theorem state_at_dual_c (g : Geometry) (h : g.single_texture = false)
    (hB : 4 * min g.chroma_width g.luma_width ≤ g.cdst_stride) (m c : Buf) (k y x : Nat)
    (hy : y < k) (hx : (x : Int) < g.luma_width) (hxc : (x : Int) < g.chroma_width)
    (hyc : (y : Int) < g.chroma_height) :
    (g.state_at m c k).cbits (y * g.cdst_stride + (x * 4 + 0 + g.c_offset)) =
        g.src1 (y * g.chroma_stride + x) ∧
    (g.state_at m c k).cbits (y * g.cdst_stride + (x * 4 + 1 + g.c_offset)) =
        g.src2 (y * g.chroma_stride + x) := by
  have hnc := noClash_dual_c g h hB k
  have hmem : ∀ w, w ∈ g.px_stores y x → w ∈ g.stores_upto k := fun w hw =>
    (mem_stores_upto g k w).2 ⟨y, hy, x, hx, hw⟩
  have hpx := mem_px_dual g h y x
  constructor
  · exact apply_stores_of_noClash Dst.cdst _ c hnc
      ⟨Dst.cdst, y * g.cdst_stride + (x * 4 + 0 + g.c_offset), g.src1 (y * g.chroma_stride + x)⟩
      (hmem _ ((hpx _).2 (Or.inr ⟨⟨hxc, hyc⟩, Or.inl rfl⟩))) rfl
  · exact apply_stores_of_noClash Dst.cdst _ c hnc
      ⟨Dst.cdst, y * g.cdst_stride + (x * 4 + 1 + g.c_offset), g.src2 (y * g.chroma_stride + x)⟩
      (hmem _ ((hpx _).2 (Or.inr ⟨⟨hxc, hyc⟩, Or.inr rfl⟩))) rfl

/-- Every store to the chroma destination comes from a column below `chroma_width` (and
`luma_width`) of a row below `chroma_height`. -/
theorem cdst_store_form (g : Geometry) (h : g.single_texture = false) (k : Nat) (w : Store)
    (hw : w ∈ g.stores_upto k) (hd : w.dst = Dst.cdst) :
    ∃ x y : Nat, (x : Int) < g.chroma_width ∧ (x : Int) < g.luma_width ∧
      (y : Int) < g.chroma_height ∧ y < k ∧
      (w.idx = y * g.cdst_stride + (x * 4 + 0 + g.c_offset) ∨
       w.idx = y * g.cdst_stride + (x * 4 + 1 + g.c_offset)) := by
  obtain ⟨y, hy, x, hx, hpx⟩ := (mem_stores_upto g k w).1 hw
  rcases (mem_px_dual g h y x w).1 hpx with rfl | ⟨hc, rfl | rfl⟩
  · simp at hd
  · exact ⟨x, y, hc.1, hx, hc.2, hy, Or.inl rfl⟩
  · exact ⟨x, y, hc.1, hx, hc.2, hy, Or.inr rfl⟩

/-! ## The claims -/

/-- C1 (defect in the code).  On the 8-bit single-texture path `update_frame` passes
`plane2_read` as `src0_ptr` and `plane0_read` as `src2_ptr`, and `upload_frame` advances
`src0_ptr` by `luma_stride` and `src2_ptr` by `chroma_stride`: `plane2` is read with the luma
stride and `plane0` with the chroma stride.  For the 2x2 frame with `luma_stride = 4` and
`chroma_stride = 2`, row 1 of the destination (pitch 8) should hold
`(plane2[1][0], plane1[1][0], plane0[1][0]) = (11, 7, 3)` and `(12, 8, 4)`; the code
stores `(20, 7, 90)` and `(21, 8, 91)`, the samples at offset `1 * 4` of `plane2` and at
offset `1 * 2` of `plane0`. -/
theorem C1_planes_read_with_swapped_strides :
    ∃ r, update_frame frame_luma4_chroma2 (rgb_device 8) = some r ∧ r.ret = true ∧
      frame_luma4_chroma2.plane2_read (1 * 2 + 0) = 11 ∧
      frame_luma4_chroma2.plane1_read (1 * 2 + 0) = 7 ∧
      frame_luma4_chroma2.plane0_read (1 * 4 + 0) = 3 ∧
      r.bits Tex.rgb_tex (1 * 8 + 4 * 0) = 20 ∧
      r.bits Tex.rgb_tex (1 * 8 + 4 * 0 + 1) = 7 ∧
      r.bits Tex.rgb_tex (1 * 8 + 4 * 0 + 2) = 90 ∧
      r.bits Tex.rgb_tex (1 * 8 + 4 * 1) = 21 ∧
      r.bits Tex.rgb_tex (1 * 8 + 4 * 1 + 1) = 8 ∧
      r.bits Tex.rgb_tex (1 * 8 + 4 * 1 + 2) = 91 := by
  refine ⟨_, rfl, ?_⟩
  decide

/-- C2.  High bit depth, single texture: with even byte pitch `2 * mp` of the main surface
and even byte strides `2 * ls`, `2 * cs` of the planes (so rows start at the 16-bit offsets
`y * mp`, `y * ls`, `y * cs`), and `4 * luma_width ≤ mp`, the call succeeds and row `y` of
the main surface holds `plane0[y][x]`, `plane1[y][x]`, `plane2[y][x]` at the 16-bit
positions `4x`, `4x + 1`, `4x + 2`, while position `4x + 3` keeps its prior value. -/
theorem C2_single_texture_hbd_channel_order (f : Frame) (d : Device) (mp ls cs x y : Int)
    (hbd : f.bit_depth > 8) (hs : d.yuv444_tex = true ∨ d.rgb_tex = true)
    (hlock : d.LockRect (main_tex_of d) = some ⟨2 * mp⟩)
    (hls : f.luma_stride = 2 * ls) (hcs : f.chroma_stride = 2 * cs)
    (hpitch : 4 * f.luma_width ≤ mp)
    (hx0 : 0 ≤ x) (hx : x < f.luma_width) (hy0 : 0 ≤ y) (hy : y < f.luma_height) :
    ∃ r, update_frame f d = some r ∧ r.ret = true ∧
      r.bits (main_tex_of d) (y * mp + (4 * x + 0)) = f.plane0_read (y * ls + x) ∧
      r.bits (main_tex_of d) (y * mp + (4 * x + 1)) = f.plane1_read (y * cs + x) ∧
      r.bits (main_tex_of d) (y * mp + (4 * x + 2)) = f.plane2_read (y * cs + x) ∧
      r.bits (main_tex_of d) (y * mp + (4 * x + 3)) =
        d.bits (main_tex_of d) (y * mp + (4 * x + 3)) := by
  have hst := single_of_present d hs
  have hh := hbd_of_gt f hbd
  refine ⟨_, update_frame_single_ok f d ⟨2 * mp⟩ hst hlock, rfl, ?_⟩
  rw [upload_and_unlock_bits_main]
  have hms : (call_geometry f d ⟨2 * mp⟩ ⟨0⟩).mdst_stride = mp := by
    simp [call_geometry, geometry_of, mdst_stride_of, bps_of, hh]
  have hl : (call_geometry f d ⟨2 * mp⟩ ⟨0⟩).luma_stride = ls := by
    simp [call_geometry, geometry_of, elem_stride, bps_of, hh, hls]
  have hc : (call_geometry f d ⟨2 * mp⟩ ⟨0⟩).chroma_stride = cs := by
    simp [call_geometry, geometry_of, elem_stride, bps_of, hh, hcs]
  have h0 : (call_geometry f d ⟨2 * mp⟩ ⟨0⟩).src0 = f.plane0_read := by
    simp [call_geometry, geometry_of, src0_of, hst, hh]
  have h1 : (call_geometry f d ⟨2 * mp⟩ ⟨0⟩).src1 = f.plane1_read := by
    simp [call_geometry, geometry_of, src1_of, hst, hh]
  have h2 : (call_geometry f d ⟨2 * mp⟩ ⟨0⟩).src2 = f.plane2_read := by
    simp [call_geometry, geometry_of, src2_of, hst, hh]
  have key := state_at_mbits_single (call_geometry f d ⟨2 * mp⟩ ⟨0⟩)
    (by simp [call_geometry, geometry_of, hst]) (by rw [hms]; exact hpitch)
    (d.bits (main_tex_of d)) (d.bits Tex.chroma_tex) f.luma_height.toNat y.toNat x.toNat
    (by omega) (by show (x.toNat : Int) < f.luma_width; omega)
  rw [hms, hl, hc, h0, h1, h2] at key
  have ex : (x.toNat : Int) = x := by omega
  have ey : (y.toNat : Int) = y := by omega
  rw [ex, ey] at key
  have e4 : ∀ j : Int, y * mp + (4 * x + j) = y * mp + (x * 4 + j) := fun j => by ring
  rw [e4, e4, e4, e4]
  exact key

/-- Witness of C2: the 10-bit 2x2 frame on `rgb_tex` with pitch 16 bytes (8 samples), at
row 1, column 1. -/
theorem C2_single_texture_hbd_channel_order_witness :
    ∃ r, update_frame (frame_2x2 10 2) (rgb_device 16) = some r ∧ r.ret = true ∧
      r.bits (main_tex_of (rgb_device 16)) (1 * 8 + (4 * 1 + 0)) =
        (frame_2x2 10 2).plane0_read (1 * 2 + 1) ∧
      r.bits (main_tex_of (rgb_device 16)) (1 * 8 + (4 * 1 + 1)) =
        (frame_2x2 10 2).plane1_read (1 * 2 + 1) ∧
      r.bits (main_tex_of (rgb_device 16)) (1 * 8 + (4 * 1 + 2)) =
        (frame_2x2 10 2).plane2_read (1 * 2 + 1) ∧
      r.bits (main_tex_of (rgb_device 16)) (1 * 8 + (4 * 1 + 3)) =
        (rgb_device 16).bits (main_tex_of (rgb_device 16)) (1 * 8 + (4 * 1 + 3)) :=
  C2_single_texture_hbd_channel_order (frame_2x2 10 2) (rgb_device 16) 8 2 2 1 1
    (by decide) (Or.inr rfl) rfl rfl rfl (by decide) (by decide) (by decide) (by decide)
    (by decide)

/-- C3.  Separate-surface mode, either sample width: when the element stride of the luma
destination (`mlock->Pitch / bps`) is at least `luma_width`, every position `(x, y)` of the
luma region is stored to exactly once, the store carries `src0[y][x]` (row `y` of the source
at `y` times the element stride of the luma plane), and the destination holds that value
on exit, whatever `chroma_width` and `chroma_height` are. -/
theorem C3_dual_luma_coverage (c_offset bps : Int) (mlock clock : D3DLOCKED_RECT)
    (luma_stride chroma_stride : Int) (src0 src1 src2 : Buf)
    (luma_width luma_height chroma_width chroma_height : Int) (mbits cbits : Buf)
    (x y : Int) (hstride : luma_width ≤ mdst_stride_of bps mlock)
    (hx0 : 0 ≤ x) (hx : x < luma_width) (hy0 : 0 ≤ y) (hy : y < luma_height) :
    store_count Dst.mdst (y * mdst_stride_of bps mlock + x)
        (upload_frame false c_offset bps mlock clock luma_stride chroma_stride src0 src1 src2
          luma_width luma_height chroma_width chroma_height mbits cbits).stores = 1 ∧
    (⟨Dst.mdst, y * mdst_stride_of bps mlock + x,
        src0 (y * elem_stride bps luma_stride + x)⟩ : Store) ∈
      (upload_frame false c_offset bps mlock clock luma_stride chroma_stride src0 src1 src2
        luma_width luma_height chroma_width chroma_height mbits cbits).stores ∧
    (upload_frame false c_offset bps mlock clock luma_stride chroma_stride src0 src1 src2
        luma_width luma_height chroma_width chroma_height mbits cbits).mbits
      (y * mdst_stride_of bps mlock + x) = src0 (y * elem_stride bps luma_stride + x) := by
  rw [upload_frame_eq]
  have key := state_at_dual_m
    (geometry_of false c_offset bps mlock clock luma_stride chroma_stride src0 src1 src2
      luma_width chroma_width chroma_height) rfl hstride mbits cbits luma_height.toNat
    y.toNat x.toNat (by omega) (by show (x.toNat : Int) < luma_width; omega)
  have ex : (x.toNat : Int) = x := by omega
  have ey : (y.toNat : Int) = y := by omega
  rw [ex, ey] at key
  exact key

/-- Witness of C3: 16-bit samples, luma 4x2 with pitch 16 bytes, chroma 2x1, at row 1,
column 3. -/
theorem C3_dual_luma_coverage_witness :
    store_count Dst.mdst (1 * mdst_stride_of 2 ⟨16⟩ + 3)
        (upload_frame false 0 2 ⟨16⟩ ⟨16⟩ 8 4 (buf_of_list [1, 2, 3, 4, 5, 6, 7, 8])
          (buf_of_list [9, 10]) (buf_of_list [11, 12]) 4 2 2 1 zero_buf zero_buf).stores = 1 ∧
    (⟨Dst.mdst, 1 * mdst_stride_of 2 ⟨16⟩ + 3,
        buf_of_list [1, 2, 3, 4, 5, 6, 7, 8] (1 * elem_stride 2 8 + 3)⟩ : Store) ∈
      (upload_frame false 0 2 ⟨16⟩ ⟨16⟩ 8 4 (buf_of_list [1, 2, 3, 4, 5, 6, 7, 8])
        (buf_of_list [9, 10]) (buf_of_list [11, 12]) 4 2 2 1 zero_buf zero_buf).stores ∧
    (upload_frame false 0 2 ⟨16⟩ ⟨16⟩ 8 4 (buf_of_list [1, 2, 3, 4, 5, 6, 7, 8])
        (buf_of_list [9, 10]) (buf_of_list [11, 12]) 4 2 2 1 zero_buf zero_buf).mbits
      (1 * mdst_stride_of 2 ⟨16⟩ + 3) =
        buf_of_list [1, 2, 3, 4, 5, 6, 7, 8] (1 * elem_stride 2 8 + 3) :=
  C3_dual_luma_coverage 0 2 ⟨16⟩ ⟨16⟩ 8 4 (buf_of_list [1, 2, 3, 4, 5, 6, 7, 8])
    (buf_of_list [9, 10]) (buf_of_list [11, 12]) 4 2 2 1 zero_buf zero_buf 3 1
    (by decide) (by decide) (by decide) (by decide) (by decide)

theorem dual_of_absent (d : Device) (hy4 : d.yuv444_tex = false) (hrgb : d.rgb_tex = false) :
    single_texture_of d = false := by
  simp [single_texture_of, hy4, hrgb]

/-- Counterexample to C4 as stated (no condition on the chroma pitch): 8-bit dual-surface
call, luma and chroma 2x2, chroma pitch 4 bytes (two U/V pairs per row).  Row 0, column 1 is
in bounds (`1 < min 2 2`, `0 < min 2 2`) and the claim puts `plane2[0][1] = 10` at position
`4 * 1 + 1` of chroma row 0 and `plane1[0][1] = 6` next to it; after the call the surface
holds `11` and `7` there, the samples of row 1, column 0, stored later at the same offsets
`1 * 4 + (4 * 0 + 1)` and `1 * 4 + (4 * 0 + 2)`. -/
theorem C4_counterexample :
    ∃ r, update_frame (frame_2x2 8 1) (dual_device 2 4) = some r ∧ r.ret = true ∧
      (1 : Int) < min 2 2 ∧ (0 : Int) < min 2 2 ∧
      (frame_2x2 8 1).plane2_read (0 * 2 + 1) = 10 ∧
      (frame_2x2 8 1).plane1_read (0 * 2 + 1) = 6 ∧
      r.bits Tex.chroma_tex (0 * 4 + (4 * 1 + 1)) = 11 ∧
      r.bits Tex.chroma_tex (0 * 4 + (4 * 1 + 1 + 1)) = 7 := by
  refine ⟨_, rfl, ?_⟩
  decide

/-- C4, amended.  Successful dual-surface call whose chroma destination stride
(`clock->Pitch / bps`, in samples) is at least `4 * min chroma_width luma_width`: for every
row `y < min chroma_height luma_height` and column `x < min chroma_width luma_width`, chroma
row `y` (at `y` times that stride) holds at positions `4x + c` and `4x + c + 1` the samples
`channel1[y][x]` and `channel2[y][x]` (source row `y` at `y` times the element stride of the
chroma planes), with `c = 0`, `(plane1, plane2)` above 8 bits and `c = 1`,
`(plane2, plane1)` otherwise. -/
theorem C4_dual_chroma_content (f : Frame) (d : Device) (mlock clock : D3DLOCKED_RECT)
    (x y : Int) (hy4 : d.yuv444_tex = false) (hrgb : d.rgb_tex = false)
    (hl : d.luma_tex = true) (hc : d.chroma_tex = true)
    (hml : d.LockRect Tex.luma_tex = some mlock)
    (hcl : d.LockRect Tex.chroma_tex = some clock)
    (hpitch : 4 * min f.chroma_width f.luma_width ≤ clock.Pitch.tdiv (bps_of f))
    (hx0 : 0 ≤ x) (hx : x < min f.chroma_width f.luma_width)
    (hy0 : 0 ≤ y) (hy : y < min f.chroma_height f.luma_height) :
    ∃ r, update_frame f d = some r ∧ r.ret = true ∧
      (c_offset_of f = if f.bit_depth > 8 then 0 else 1) ∧
      (bps_of f = if f.bit_depth > 8 then 2 else 1) ∧
      r.bits Tex.chroma_tex (y * clock.Pitch.tdiv (bps_of f) + (4 * x + c_offset_of f)) =
        (if f.bit_depth > 8 then f.plane1_read else f.plane2_read)
          (y * elem_stride (bps_of f) f.chroma_stride + x) ∧
      r.bits Tex.chroma_tex (y * clock.Pitch.tdiv (bps_of f) + (4 * x + c_offset_of f + 1)) =
        (if f.bit_depth > 8 then f.plane2_read else f.plane1_read)
          (y * elem_stride (bps_of f) f.chroma_stride + x) := by
  have hs := dual_of_absent d hy4 hrgb
  refine ⟨_, update_frame_dual_ok f d mlock clock hs hl hc hml hcl, rfl, ?_, ?_, ?_⟩
  · simp [c_offset_of, hbd_of]
  · simp [bps_of, hbd_of]
  rw [upload_and_unlock_bits_chroma f d mlock clock _ hs]
  have hgs : (call_geometry f d mlock clock).single_texture = false := by
    simp [call_geometry, geometry_of, hs]
  have hcd : (call_geometry f d mlock clock).cdst_stride = clock.Pitch.tdiv (bps_of f) := by
    simp [call_geometry, geometry_of, cdst_stride_of, hs]
  have h1 : (call_geometry f d mlock clock).src1 =
      (if f.bit_depth > 8 then f.plane1_read else f.plane2_read) := by
    simp [call_geometry, geometry_of, src1_of, hs, hbd_of]
  have h2 : (call_geometry f d mlock clock).src2 =
      (if f.bit_depth > 8 then f.plane2_read else f.plane1_read) := by
    simp [call_geometry, geometry_of, src2_of, hs, hbd_of]
  have key := state_at_dual_c (call_geometry f d mlock clock) hgs
    (by rw [hcd]; exact hpitch) (d.bits (main_tex_of d)) (d.bits Tex.chroma_tex)
    f.luma_height.toNat y.toNat x.toNat (by omega)
    (by show (x.toNat : Int) < f.luma_width; omega)
    (by show (x.toNat : Int) < f.chroma_width; omega)
    (by show (y.toNat : Int) < f.chroma_height; omega)
  have ex : (x.toNat : Int) = x := by omega
  have ey : (y.toNat : Int) = y := by omega
  rw [hcd, h1, h2, ex, ey] at key
  have hco : (call_geometry f d mlock clock).c_offset = c_offset_of f := rfl
  have hcs : (call_geometry f d mlock clock).chroma_stride =
      elem_stride (bps_of f) f.chroma_stride := rfl
  rw [hco, hcs] at key
  have e0 : 4 * x + c_offset_of f = x * 4 + 0 + c_offset_of f := by ring
  have e1 : 4 * x + c_offset_of f + 1 = x * 4 + 1 + c_offset_of f := by ring
  rw [e1, e0]
  exact key

/-- Witness of C4 (amended): the 8-bit 2x2 frame with chroma pitch 8 bytes, at row 0,
column 1. -/
theorem C4_dual_chroma_content_witness :
    ∃ r, update_frame (frame_2x2 8 1) (dual_device 2 8) = some r ∧ r.ret = true ∧
      (c_offset_of (frame_2x2 8 1) = if (frame_2x2 8 1).bit_depth > 8 then 0 else 1) ∧
      (bps_of (frame_2x2 8 1) = if (frame_2x2 8 1).bit_depth > 8 then 2 else 1) ∧
      r.bits Tex.chroma_tex
          (0 * (8 : Int).tdiv (bps_of (frame_2x2 8 1)) + (4 * 1 + c_offset_of (frame_2x2 8 1))) =
        (if (frame_2x2 8 1).bit_depth > 8 then (frame_2x2 8 1).plane1_read
          else (frame_2x2 8 1).plane2_read)
          (0 * elem_stride (bps_of (frame_2x2 8 1)) (frame_2x2 8 1).chroma_stride + 1) ∧
      r.bits Tex.chroma_tex
          (0 * (8 : Int).tdiv (bps_of (frame_2x2 8 1)) +
            (4 * 1 + c_offset_of (frame_2x2 8 1) + 1)) =
        (if (frame_2x2 8 1).bit_depth > 8 then (frame_2x2 8 1).plane2_read
          else (frame_2x2 8 1).plane1_read)
          (0 * elem_stride (bps_of (frame_2x2 8 1)) (frame_2x2 8 1).chroma_stride + 1) :=
  C4_dual_chroma_content (frame_2x2 8 1) (dual_device 2 8) ⟨2⟩ ⟨8⟩ 1 0 rfl rfl rfl rfl rfl rfl
    (by decide) (by decide) (by decide) (by decide) (by decide)

/-- Counterexample to C5 as stated (no condition on the chroma pitch): separate surfaces,
8-bit, luma 2x2, chroma 2x1, chroma pitch 4 bytes.  Position `1 * 4 + 1` lies in row 1 of the
chroma surface, a row `≥ chroma_height = 1`, and does not keep its prior value `0`: the
stores for column 1 of row 0 go to offsets `4 * 1 + 1` and `4 * 1 + 2`. -/
theorem C5_counterexample :
    (1 : Int) ≤ 1 ∧ cdst_stride_of false 1 ⟨4⟩ = 4 ∧
    zero_buf (1 * 4 + 1) = 0 ∧
    (upload_frame false 1 1 ⟨2⟩ ⟨4⟩ 2 2 (buf_of_list [1, 2, 3, 4]) (buf_of_list [9, 10])
      (buf_of_list [5, 6]) 2 2 2 1 zero_buf zero_buf).cbits (1 * 4 + 1) = 10 := by
  decide

/-- C5, amended.  In separate-surface mode every store to the chroma destination comes from a
pair `(x, y)` with `x < chroma_width` and `y < chroma_height` and goes to position
`4x + c_offset` or `4x + c_offset + 1` of row `y`.  When moreover the chroma destination
stride is at least `4 * min chroma_width luma_width` samples (and `c_offset` is `0` or `1`),
every position `q` of a row `y` of the chroma surface with `y ≥ chroma_height`, or in a
column `≥ chroma_width` (columns being 4 samples wide: `q ≥ 4 * chroma_width`), has after
the call the value it had before. -/
theorem C5_chroma_bounding (c_offset bps : Int) (mlock clock : D3DLOCKED_RECT)
    (luma_stride chroma_stride : Int) (src0 src1 src2 : Buf)
    (luma_width luma_height chroma_width chroma_height : Int) (mbits cbits : Buf) :
    (∀ w ∈ (upload_frame false c_offset bps mlock clock luma_stride chroma_stride src0 src1
          src2 luma_width luma_height chroma_width chroma_height mbits cbits).stores,
        w.dst = Dst.cdst →
        ∃ x y : Int, 0 ≤ x ∧ x < chroma_width ∧ 0 ≤ y ∧ y < chroma_height ∧
          (w.idx = y * cdst_stride_of false bps clock + (x * 4 + 0 + c_offset) ∨
           w.idx = y * cdst_stride_of false bps clock + (x * 4 + 1 + c_offset))) ∧
    ((c_offset = 0 ∨ c_offset = 1) →
      4 * min chroma_width luma_width ≤ cdst_stride_of false bps clock →
      ∀ y q : Int, 0 ≤ q → q < cdst_stride_of false bps clock →
        (chroma_height ≤ y ∨ 4 * chroma_width ≤ q) →
        (upload_frame false c_offset bps mlock clock luma_stride chroma_stride src0 src1 src2
          luma_width luma_height chroma_width chroma_height mbits cbits).cbits
            (y * cdst_stride_of false bps clock + q) =
          cbits (y * cdst_stride_of false bps clock + q)) := by
  rw [upload_frame_eq]
  have hform : ∀ w ∈ (geometry_of false c_offset bps mlock clock luma_stride chroma_stride
        src0 src1 src2 luma_width chroma_width chroma_height).stores_upto luma_height.toNat,
      w.dst = Dst.cdst →
      ∃ x y : Nat, (x : Int) < chroma_width ∧ (x : Int) < luma_width ∧
        (y : Int) < chroma_height ∧ y < luma_height.toNat ∧
        (w.idx = y * cdst_stride_of false bps clock + (x * 4 + 0 + c_offset) ∨
         w.idx = y * cdst_stride_of false bps clock + (x * 4 + 1 + c_offset)) :=
    cdst_store_form
      (geometry_of false c_offset bps mlock clock luma_stride chroma_stride src0 src1 src2
        luma_width chroma_width chroma_height) rfl luma_height.toNat
  constructor
  · intro w hw hd
    obtain ⟨x, y, hxc, _, hyc, _, hidx⟩ := hform w hw hd
    exact ⟨x, y, by omega, hxc, by omega, hyc, hidx⟩
  · intro hco hpitch y q hq0 hq hyq
    apply apply_stores_of_not_hit
    intro w hw hd e
    obtain ⟨x', y', hxc, hxl, hyc, _, hidx⟩ := hform w hw hd
    have hxm : (x' : Int) < min chroma_width luma_width := by omega
    have key : ∀ j : Int, 0 ≤ j → j ≤ 1 →
        (y' : Int) * cdst_stride_of false bps clock + (x' * 4 + j + c_offset) ≠
          y * cdst_stride_of false bps clock + q := by
      intro j hj0 hj1 e'
      have := grid_inj (cdst_stride_of false bps clock) (x' * 4 + j + c_offset) q y' y
        (by omega) (by omega) hq0 hq e'
      have h1 : (y' : Int) = y := this.1
      omega
    rcases hidx with h | h
    · exact key 0 (by norm_num) (by norm_num) (h ▸ e)
    · exact key 1 (by norm_num) (by norm_num) (h ▸ e)

/-- Witness of C5 (amended): 8-bit, luma 2x2, chroma 2x1, chroma pitch 8 bytes; position 1 of
row 1 keeps its value. -/
theorem C5_chroma_bounding_witness :
    (upload_frame false 1 1 ⟨2⟩ ⟨8⟩ 2 2 (buf_of_list [1, 2, 3, 4]) (buf_of_list [9, 10])
        (buf_of_list [5, 6]) 2 2 2 1 zero_buf zero_buf).cbits
      (1 * cdst_stride_of false 1 ⟨8⟩ + 1) = zero_buf (1 * cdst_stride_of false 1 ⟨8⟩ + 1) :=
  (C5_chroma_bounding 1 1 ⟨2⟩ ⟨8⟩ 2 2 (buf_of_list [1, 2, 3, 4]) (buf_of_list [9, 10])
    (buf_of_list [5, 6]) 2 2 2 1 zero_buf zero_buf).2 (Or.inr rfl) (by decide) 1 1
    (by decide) (by decide) (Or.inl (by decide))

/-! ## Locks -/

theorem main_tex_ne_chroma (d : Device) : main_tex_of d ≠ Tex.chroma_tex := by
  unfold main_tex_of
  split
  · split <;> simp
  · simp

theorem main_tex_dual (d : Device) (hs : single_texture_of d = false) :
    main_tex_of d = Tex.luma_tex := by
  simp [main_tex_of, hs]

/-- The four ways a call of `update_frame` ends. -/
theorem update_frame_cases (f : Frame) (d : Device) (r : Outcome)
    (h : update_frame f d = some r) :
    (d.LockRect (main_tex_of d) = none ∧
      r = { ret := false,
            bits := d.bits,
            trace := [Event.lockRect (main_tex_of d) false,
                      Event.unlockRect (main_tex_of d)] }) ∨
    (∃ mlock, d.LockRect (main_tex_of d) = some mlock ∧ single_texture_of d = true ∧
      r = upload_and_unlock f d mlock ⟨0⟩ [Event.lockRect (main_tex_of d) true]) ∨
    (∃ mlock, d.LockRect (main_tex_of d) = some mlock ∧ single_texture_of d = false ∧
      d.LockRect Tex.chroma_tex = none ∧
      r = { ret := false,
            bits := d.bits,
            trace := [Event.lockRect (main_tex_of d) true,
                      Event.lockRect Tex.chroma_tex false,
                      Event.unlockRect Tex.chroma_tex] }) ∨
    (∃ mlock clock, d.LockRect (main_tex_of d) = some mlock ∧ single_texture_of d = false ∧
      d.LockRect Tex.chroma_tex = some clock ∧
      r = upload_and_unlock f d mlock clock
        [Event.lockRect (main_tex_of d) true, Event.lockRect Tex.chroma_tex true]) := by
  unfold update_frame at h
  simp only at h
  split at h
  · simp at h
  · split at h
    · next hl =>
      left
      simp only [Option.some.injEq] at h
      exact ⟨hl, h.symm⟩
    · next mlock hl =>
      right
      split at h
      · next hs =>
        left
        simp only [Option.some.injEq] at h
        exact ⟨mlock, hl, hs, h.symm⟩
      · next hs =>
        right
        have hs' : single_texture_of d = false := by simpa using hs
        split at h
        · simp at h
        · split at h
          · next hcl =>
            left
            simp only [Option.some.injEq] at h
            exact ⟨mlock, hl, hs', hcl, h.symm⟩
          · next clock hcl =>
            right
            simp only [Option.some.injEq] at h
            exact ⟨mlock, clock, hl, hs', hcl, h.symm⟩

theorem count_lock_map (d : Device) (t : Tex) (b : Bool) (l : List Store) :
    (l.map (event_of_store d)).count (Event.lockRect t b) = 0 := by
  rw [List.count_eq_zero]
  simp [event_of_store]

theorem count_unlock_map (d : Device) (t : Tex) (l : List Store) :
    (l.map (event_of_store d)).count (Event.unlockRect t) = 0 := by
  rw [List.count_eq_zero]
  simp [event_of_store]

theorem acquired_upload_and_unlock (f : Frame) (d : Device) (mlock clock : D3DLOCKED_RECT)
    (evs : List Event) (t : Tex) :
    acquired t (upload_and_unlock f d mlock clock evs).trace =
      evs.count (Event.lockRect t true) := by
  rw [upload_and_unlock_trace]
  unfold acquired
  simp only [List.count_append, count_lock_map]
  split <;> simp

theorem count_unlock_singleton (t t' : Tex) :
    [Event.unlockRect t'].count (Event.unlockRect t) = if t = t' then 1 else 0 := by
  by_cases h : t = t'
  · subst h; simp
  · have h' : ¬ t' = t := fun e => h e.symm
    simp [List.count_cons, h, h']

theorem released_upload_and_unlock (f : Frame) (d : Device) (mlock clock : D3DLOCKED_RECT)
    (evs : List Event) (t : Tex) :
    released t (upload_and_unlock f d mlock clock evs).trace =
      evs.count (Event.unlockRect t) + (if t = main_tex_of d then 1 else 0) +
        (if single_texture_of d = false ∧ t = Tex.chroma_tex then 1 else 0) := by
  rw [upload_and_unlock_trace]
  unfold released
  simp only [List.count_append, count_unlock_map]
  cases hs : single_texture_of d
  · simp [count_unlock_singleton]
  · simp [count_unlock_singleton]

/-- C6 (defect in the code).  Dual-surface call, the lock of the main surface (`luma_tex`)
succeeds and the lock of `chroma_tex` fails: `update_frame` returns `false`, but the only
`UnlockRect` it calls is on `chroma_tex`, whose lock was not acquired.  The main surface is
never released and is still locked when the call returns. -/
theorem C6_chroma_lock_failure_leaves_main_locked (f : Frame) (d : Device)
    (mlock : D3DLOCKED_RECT) (hy4 : d.yuv444_tex = false) (hrgb : d.rgb_tex = false)
    (hl : d.luma_tex = true) (hc : d.chroma_tex = true)
    (hml : d.LockRect Tex.luma_tex = some mlock) (hcl : d.LockRect Tex.chroma_tex = none) :
    ∃ r, update_frame f d = some r ∧ r.ret = false ∧ main_tex_of d = Tex.luma_tex ∧
      r.trace = [Event.lockRect Tex.luma_tex true, Event.lockRect Tex.chroma_tex false,
                 Event.unlockRect Tex.chroma_tex] ∧
      acquired Tex.luma_tex r.trace = 1 ∧ released Tex.luma_tex r.trace = 0 ∧
      released Tex.chroma_tex r.trace = 1 ∧ locked_after Tex.luma_tex r.trace = true := by
  have hs := dual_of_absent d hy4 hrgb
  refine ⟨_, update_frame_chroma_fail f d mlock hs hl hc hml hcl, rfl, main_tex_dual d hs,
    rfl, ?_, ?_, ?_, ?_⟩
  · show acquired Tex.luma_tex [Event.lockRect Tex.luma_tex true,
      Event.lockRect Tex.chroma_tex false, Event.unlockRect Tex.chroma_tex] = 1
    decide
  · show released Tex.luma_tex [Event.lockRect Tex.luma_tex true,
      Event.lockRect Tex.chroma_tex false, Event.unlockRect Tex.chroma_tex] = 0
    decide
  · show released Tex.chroma_tex [Event.lockRect Tex.luma_tex true,
      Event.lockRect Tex.chroma_tex false, Event.unlockRect Tex.chroma_tex] = 1
    decide
  · show locked_after Tex.luma_tex [Event.lockRect Tex.luma_tex true,
      Event.lockRect Tex.chroma_tex false, Event.unlockRect Tex.chroma_tex] = true
    decide

/-- Witness of C6: the 8-bit 2x2 frame on a device whose chroma lock fails. -/
theorem C6_chroma_lock_failure_leaves_main_locked_witness :
    ∃ r, update_frame (frame_2x2 8 1) (dual_device_chroma_fails 2) = some r ∧ r.ret = false ∧
      main_tex_of (dual_device_chroma_fails 2) = Tex.luma_tex ∧
      r.trace = [Event.lockRect Tex.luma_tex true, Event.lockRect Tex.chroma_tex false,
                 Event.unlockRect Tex.chroma_tex] ∧
      acquired Tex.luma_tex r.trace = 1 ∧ released Tex.luma_tex r.trace = 0 ∧
      released Tex.chroma_tex r.trace = 1 ∧ locked_after Tex.luma_tex r.trace = true :=
  C6_chroma_lock_failure_leaves_main_locked (frame_2x2 8 1) (dual_device_chroma_fails 2) ⟨2⟩
    rfl rfl rfl rfl rfl rfl

/-- Counterexample to C7 as stated: single-texture call on `rgb_tex` whose lock fails.  No
lock is acquired, yet one release is performed, on the main surface. -/
theorem C7_counterexample :
    ∃ r, update_frame (frame_2x2 8 1) rgb_device_lock_fails = some r ∧ r.ret = false ∧
      main_tex_of rgb_device_lock_fails = Tex.rgb_tex ∧
      rgb_device_lock_fails.LockRect Tex.rgb_tex = none ∧
      acquired Tex.rgb_tex r.trace = 0 ∧ released Tex.rgb_tex r.trace = 1 := by
  refine ⟨_, rfl, ?_⟩
  decide

/-- C7, amended.  For every call of `update_frame` that returns: on success every texture is
released as often as it was locked, once for the main surface and, in dual-surface mode,
once for `chroma_tex`, never for the others.  After a failed lock attempt `update_frame`
calls `UnlockRect` on the texture whose lock failed: when the main-surface lock fails no lock
is acquired, one release is performed on the main surface and none on another texture; when
the chroma lock fails the main surface was locked once, `chroma_tex` was not, one release is
performed on `chroma_tex`, and the textures other than these two are neither locked nor
released. -/
theorem C7_lock_release_pairing (f : Frame) (d : Device) (r : Outcome)
    (h : update_frame f d = some r) :
    (r.ret = true → ∀ t, acquired t r.trace = released t r.trace ∧
      acquired t r.trace =
        if t = main_tex_of d ∨ (single_texture_of d = false ∧ t = Tex.chroma_tex) then 1
        else 0) ∧
    (d.LockRect (main_tex_of d) = none →
      (∀ t, acquired t r.trace = 0) ∧ released (main_tex_of d) r.trace = 1 ∧
      ∀ t, t ≠ main_tex_of d → released t r.trace = 0) ∧
    (single_texture_of d = false → (d.LockRect (main_tex_of d)).isSome = true →
      d.LockRect Tex.chroma_tex = none →
      acquired (main_tex_of d) r.trace = 1 ∧ acquired Tex.chroma_tex r.trace = 0 ∧
      released Tex.chroma_tex r.trace = 1 ∧
      ∀ t, t ≠ main_tex_of d → t ≠ Tex.chroma_tex →
        acquired t r.trace = 0 ∧ released t r.trace = 0) := by
  have hmc := main_tex_ne_chroma d
  rcases update_frame_cases f d r h with ⟨hl, rfl⟩ | ⟨mlock, hl, hs, rfl⟩ |
    ⟨mlock, hl, hs, hcl, rfl⟩ | ⟨mlock, clock, hl, hs, hcl, rfl⟩
  · refine ⟨by simp, fun _ => ⟨fun t => ?_, ?_, fun t ht => ?_⟩, by simp [hl]⟩
    · simp [acquired, List.count_cons]
    · simp [released, List.count_cons]
    · have ht' : ¬ main_tex_of d = t := fun e => ht e.symm
      simp [released, List.count_cons, ht']
  · refine ⟨fun _ t => ?_, by simp [hl], by simp [hs]⟩
    rw [acquired_upload_and_unlock, released_upload_and_unlock]
    by_cases ht : t = main_tex_of d
    · subst ht; simp [hs]
    · have ht' : ¬ main_tex_of d = t := fun e => ht e.symm
      simp [hs, ht, ht', List.count_cons]
  · refine ⟨by simp, by simp [hl], fun _ _ _ => ⟨?_, ?_, ?_, fun t ht htc => ⟨?_, ?_⟩⟩⟩
    · simp [acquired, List.count_cons, hmc.symm]
    · simp [acquired, List.count_cons, hmc.symm]
    · simp [released, List.count_cons]
    · have ht' : ¬ main_tex_of d = t := fun e => ht e.symm
      have htc' : ¬ Tex.chroma_tex = t := fun e => htc e.symm
      simp [acquired, List.count_cons, ht', htc']
    · have htc' : ¬ Tex.chroma_tex = t := fun e => htc e.symm
      simp [released, List.count_cons, htc']
  · refine ⟨fun _ t => ?_, by simp [hl], by simp [hcl]⟩
    rw [acquired_upload_and_unlock, released_upload_and_unlock]
    by_cases ht : t = main_tex_of d
    · subst ht; simp [hs, hmc, hmc.symm, List.count_cons]
    · have ht' : ¬ main_tex_of d = t := fun e => ht e.symm
      by_cases htc : t = Tex.chroma_tex
      · subst htc; simp [hs, ht, List.count_cons, hmc]
      · have htc' : ¬ Tex.chroma_tex = t := fun e => htc e.symm
        simp [hs, ht, ht', htc, htc', List.count_cons]

/-- Witness of C7 (amended): a successful dual-surface call on the 8-bit 2x2 frame, at the
texture `chroma_tex`. -/
theorem C7_lock_release_pairing_witness :
    acquired Tex.chroma_tex (upload_and_unlock (frame_2x2 8 1) (dual_device 2 8) ⟨2⟩ ⟨8⟩
          [Event.lockRect Tex.luma_tex true, Event.lockRect Tex.chroma_tex true]).trace =
        released Tex.chroma_tex (upload_and_unlock (frame_2x2 8 1) (dual_device 2 8) ⟨2⟩ ⟨8⟩
          [Event.lockRect Tex.luma_tex true, Event.lockRect Tex.chroma_tex true]).trace ∧
      acquired Tex.chroma_tex (upload_and_unlock (frame_2x2 8 1) (dual_device 2 8) ⟨2⟩ ⟨8⟩
          [Event.lockRect Tex.luma_tex true, Event.lockRect Tex.chroma_tex true]).trace =
        if Tex.chroma_tex = main_tex_of (dual_device 2 8) ∨
            (single_texture_of (dual_device 2 8) = false ∧ Tex.chroma_tex = Tex.chroma_tex)
          then 1
        else 0 :=
  (C7_lock_release_pairing (frame_2x2 8 1) (dual_device 2 8)
    (upload_and_unlock (frame_2x2 8 1) (dual_device 2 8) ⟨2⟩ ⟨8⟩
      [Event.lockRect Tex.luma_tex true, Event.lockRect Tex.chroma_tex true]) rfl).1 rfl
    Tex.chroma_tex

/-- C8.  When the lock of the main surface fails (single-texture or dual-surface mode),
`update_frame` returns `false` and its trace holds no lock attempt on `chroma_tex`. -/
theorem C8_main_lock_failure (f : Frame) (d : Device)
    (hp : d.present (main_tex_of d) = true) (hl : d.LockRect (main_tex_of d) = none) :
    ∃ r, update_frame f d = some r ∧ r.ret = false ∧
      ∀ ok, Event.lockRect Tex.chroma_tex ok ∉ r.trace := by
  refine ⟨_, update_frame_main_fail f d hp hl, rfl, fun ok => ?_⟩
  have hmc := main_tex_ne_chroma d
  simp [hmc.symm]

/-- Witness of C8: dual-surface call in which no lock succeeds. -/
theorem C8_main_lock_failure_witness :
    ∃ r, update_frame (frame_2x2 8 1)
        { luma_tex := true, chroma_tex := true, yuv444_tex := false, rgb_tex := false,
          LockRect := fun _ => none, bits := fun _ => zero_buf } = some r ∧
      r.ret = false ∧ ∀ ok, Event.lockRect Tex.chroma_tex ok ∉ r.trace :=
  C8_main_lock_failure (frame_2x2 8 1)
    { luma_tex := true, chroma_tex := true, yuv444_tex := false, rgb_tex := false,
      LockRect := fun _ => none, bits := fun _ => zero_buf } rfl rfl

theorem written_of_store (f : Frame) (d : Device) (mlock clock : D3DLOCKED_RECT)
    (evs : List Event) (w : Store)
    (hw : w ∈ (call_geometry f d mlock clock).stores_upto f.luma_height.toNat) :
    written (tex_of_dst d w.dst) w.idx (upload_and_unlock f d mlock clock evs).trace = true := by
  have hmem : event_of_store d w ∈ (upload_and_unlock f d mlock clock evs).trace := by
    rw [upload_and_unlock_trace]
    simp only [List.mem_append, List.mem_map]
    exact Or.inl (Or.inl (Or.inr ⟨w, hw, rfl⟩))
  unfold written
  rw [List.any_eq_true]
  exact ⟨_, hmem, by simp [event_of_store]⟩

/-- C9.  A call that returns `false` leaves the memory of every texture as it was; a call
that returns `true` has stored to every luma-range position of the main surface (positions
`4x`, `4x + 1`, `4x + 2` of each row in single-texture mode, position `x` in dual-surface
mode) and, in dual-surface mode, to both positions of every in-bounds chroma column. -/
theorem C9_all_or_nothing (f : Frame) (d : Device) (r : Outcome)
    (h : update_frame f d = some r) :
    (r.ret = false → r.bits = d.bits) ∧
    (r.ret = true →
      ∃ mlock, d.LockRect (main_tex_of d) = some mlock ∧
        (∀ x y : Int, 0 ≤ x → x < f.luma_width → 0 ≤ y → y < f.luma_height →
          if single_texture_of d = true then
            written (main_tex_of d)
              (y * mdst_stride_of (bps_of f) mlock + (4 * x + 0)) r.trace = true ∧
            written (main_tex_of d)
              (y * mdst_stride_of (bps_of f) mlock + (4 * x + 1)) r.trace = true ∧
            written (main_tex_of d)
              (y * mdst_stride_of (bps_of f) mlock + (4 * x + 2)) r.trace = true
          else
            written (main_tex_of d)
              (y * mdst_stride_of (bps_of f) mlock + x) r.trace = true) ∧
        (single_texture_of d = false →
          ∃ clock, d.LockRect Tex.chroma_tex = some clock ∧
            ∀ x y : Int, 0 ≤ x → x < min f.chroma_width f.luma_width →
              0 ≤ y → y < min f.chroma_height f.luma_height →
              written Tex.chroma_tex
                (y * clock.Pitch.tdiv (bps_of f) + (4 * x + c_offset_of f)) r.trace = true ∧
              written Tex.chroma_tex
                (y * clock.Pitch.tdiv (bps_of f) + (4 * x + c_offset_of f + 1)) r.trace
                  = true)) := by
  rcases update_frame_cases f d r h with ⟨hl, rfl⟩ | ⟨mlock, hl, hs, rfl⟩ |
    ⟨mlock, hl, hs, hcl, rfl⟩ | ⟨mlock, clock, hl, hs, hcl, rfl⟩
  · exact ⟨fun _ => rfl, by simp⟩
  · refine ⟨by simp [upload_and_unlock], fun _ => ⟨mlock, hl, ?_, by simp [hs]⟩⟩
    intro x y hx0 hx hy0 hy
    have hgs : (call_geometry f d mlock ⟨0⟩).single_texture = true := hs
    have ex : ((x.toNat : Nat) : Int) = x := by omega
    have ey : ((y.toNat : Nat) : Int) = y := by omega
    have hmem : ∀ w, w ∈ (call_geometry f d mlock ⟨0⟩).px_stores y.toNat x.toNat →
        written (tex_of_dst d w.dst) w.idx (upload_and_unlock f d mlock ⟨0⟩
          [Event.lockRect (main_tex_of d) true]).trace = true := fun w hw =>
      written_of_store f d mlock ⟨0⟩ _ w
        ((mem_stores_upto _ _ w).2 ⟨y.toNat, by omega, x.toNat,
          by show (x.toNat : Int) < f.luma_width; omega, hw⟩)
    have hpx := mem_px_single (call_geometry f d mlock ⟨0⟩) hgs y.toNat x.toNat
    have hms : (call_geometry f d mlock ⟨0⟩).mdst_stride = mdst_stride_of (bps_of f) mlock :=
      rfl
    rw [ex, ey, hms] at hpx
    have e4 : ∀ j : Int, 4 * x + j = x * 4 + j := fun j => by ring
    simp only [hs, if_true, e4]
    exact ⟨hmem _ ((hpx _).2 (Or.inl rfl)), hmem _ ((hpx _).2 (Or.inr (Or.inl rfl))),
      hmem _ ((hpx _).2 (Or.inr (Or.inr rfl)))⟩
  · exact ⟨fun _ => rfl, by simp⟩
  · refine ⟨by simp [upload_and_unlock], fun _ => ⟨mlock, hl, ?_, fun _ => ⟨clock, hcl, ?_⟩⟩⟩
    · intro x y hx0 hx hy0 hy
      have hgs : (call_geometry f d mlock clock).single_texture = false := hs
      have ex : ((x.toNat : Nat) : Int) = x := by omega
      have ey : ((y.toNat : Nat) : Int) = y := by omega
      have hpx := mem_px_dual (call_geometry f d mlock clock) hgs y.toNat x.toNat
      have hms : (call_geometry f d mlock clock).mdst_stride =
          mdst_stride_of (bps_of f) mlock := rfl
      rw [ex, ey, hms] at hpx
      simp only [hs, Bool.false_eq_true, if_false]
      exact written_of_store f d mlock clock _ _
        ((mem_stores_upto _ _ _).2 ⟨y.toNat, by omega, x.toNat,
          by show (x.toNat : Int) < f.luma_width; omega, (hpx _).2 (Or.inl rfl)⟩)
    · intro x y hx0 hx hy0 hy
      have hgs : (call_geometry f d mlock clock).single_texture = false := hs
      have ex : ((x.toNat : Nat) : Int) = x := by omega
      have ey : ((y.toNat : Nat) : Int) = y := by omega
      have hpx := mem_px_dual (call_geometry f d mlock clock) hgs y.toNat x.toNat
      have hcd : (call_geometry f d mlock clock).cdst_stride =
          clock.Pitch.tdiv (bps_of f) := by
        simp [call_geometry, geometry_of, cdst_stride_of, hs]
      have hco : (call_geometry f d mlock clock).c_offset = c_offset_of f := rfl
      have hcw : (call_geometry f d mlock clock).chroma_width = f.chroma_width := rfl
      have hch : (call_geometry f d mlock clock).chroma_height = f.chroma_height := rfl
      rw [ex, ey, hcd, hco, hcw, hch] at hpx
      have hmem : ∀ w, w ∈ (call_geometry f d mlock clock).px_stores y.toNat x.toNat →
          written (tex_of_dst d w.dst) w.idx (upload_and_unlock f d mlock clock
            [Event.lockRect (main_tex_of d) true, Event.lockRect Tex.chroma_tex true]).trace
            = true :=
        fun w hw => written_of_store f d mlock clock _ w
          ((mem_stores_upto _ _ w).2 ⟨y.toNat, by omega, x.toNat,
            by show (x.toNat : Int) < f.luma_width; omega, hw⟩)
      have hb : x < f.chroma_width ∧ y < f.chroma_height := ⟨by omega, by omega⟩
      have e0 : 4 * x + c_offset_of f = x * 4 + 0 + c_offset_of f := by ring
      have e1 : 4 * x + c_offset_of f + 1 = x * 4 + 1 + c_offset_of f := by ring
      rw [e1, e0]
      exact ⟨hmem _ ((hpx _).2 (Or.inr ⟨hb, Or.inl rfl⟩)),
        hmem _ ((hpx _).2 (Or.inr ⟨hb, Or.inr rfl⟩))⟩

/-- Witness of C9: the successful single-texture call on the 8-bit 2x2 frame with pitch 8. -/
theorem C9_all_or_nothing_witness :
    ((upload_and_unlock (frame_2x2 8 1) (rgb_device 8) ⟨8⟩ ⟨0⟩
        [Event.lockRect Tex.rgb_tex true]).ret = true) ∧
    ∃ mlock, (rgb_device 8).LockRect (main_tex_of (rgb_device 8)) = some mlock ∧
      (∀ x y : Int, 0 ≤ x → x < (frame_2x2 8 1).luma_width → 0 ≤ y →
          y < (frame_2x2 8 1).luma_height →
        if single_texture_of (rgb_device 8) = true then
          written (main_tex_of (rgb_device 8))
            (y * mdst_stride_of (bps_of (frame_2x2 8 1)) mlock + (4 * x + 0))
            (upload_and_unlock (frame_2x2 8 1) (rgb_device 8) ⟨8⟩ ⟨0⟩
              [Event.lockRect Tex.rgb_tex true]).trace = true ∧
          written (main_tex_of (rgb_device 8))
            (y * mdst_stride_of (bps_of (frame_2x2 8 1)) mlock + (4 * x + 1))
            (upload_and_unlock (frame_2x2 8 1) (rgb_device 8) ⟨8⟩ ⟨0⟩
              [Event.lockRect Tex.rgb_tex true]).trace = true ∧
          written (main_tex_of (rgb_device 8))
            (y * mdst_stride_of (bps_of (frame_2x2 8 1)) mlock + (4 * x + 2))
            (upload_and_unlock (frame_2x2 8 1) (rgb_device 8) ⟨8⟩ ⟨0⟩
              [Event.lockRect Tex.rgb_tex true]).trace = true
        else
          written (main_tex_of (rgb_device 8))
            (y * mdst_stride_of (bps_of (frame_2x2 8 1)) mlock + x)
            (upload_and_unlock (frame_2x2 8 1) (rgb_device 8) ⟨8⟩ ⟨0⟩
              [Event.lockRect Tex.rgb_tex true]).trace = true) ∧
      (single_texture_of (rgb_device 8) = false →
        ∃ clock, (rgb_device 8).LockRect Tex.chroma_tex = some clock ∧
          ∀ x y : Int, 0 ≤ x →
            x < min (frame_2x2 8 1).chroma_width (frame_2x2 8 1).luma_width →
            0 ≤ y → y < min (frame_2x2 8 1).chroma_height (frame_2x2 8 1).luma_height →
            written Tex.chroma_tex
              (y * clock.Pitch.tdiv (bps_of (frame_2x2 8 1)) +
                (4 * x + c_offset_of (frame_2x2 8 1)))
              (upload_and_unlock (frame_2x2 8 1) (rgb_device 8) ⟨8⟩ ⟨0⟩
                [Event.lockRect Tex.rgb_tex true]).trace = true ∧
            written Tex.chroma_tex
              (y * clock.Pitch.tdiv (bps_of (frame_2x2 8 1)) +
                (4 * x + c_offset_of (frame_2x2 8 1) + 1))
              (upload_and_unlock (frame_2x2 8 1) (rgb_device 8) ⟨8⟩ ⟨0⟩
                [Event.lockRect Tex.rgb_tex true]).trace = true) :=
  ⟨rfl, (C9_all_or_nothing (frame_2x2 8 1) (rgb_device 8)
    (upload_and_unlock (frame_2x2 8 1) (rgb_device 8) ⟨8⟩ ⟨0⟩
      [Event.lockRect Tex.rgb_tex true]) rfl).2 rfl⟩

/-- C10.  Whenever the texture pointers the call dereferences are non-null (single-texture
mode, or `luma_tex` and `chroma_tex` both passed), `update_frame` returns, and it returns
`true` exactly when the lock of the main surface succeeds and, in dual-surface mode, the lock
of `chroma_tex` succeeds too; the frame arguments play no part. -/
theorem C10_result_value (f : Frame) (d : Device)
    (hnn : single_texture_of d = true ∨ (d.luma_tex = true ∧ d.chroma_tex = true)) :
    ∃ r, update_frame f d = some r ∧
      (r.ret = true ↔
        ((d.LockRect (main_tex_of d)).isSome = true ∧
          (single_texture_of d = true ∨ (d.LockRect Tex.chroma_tex).isSome = true))) := by
  have hp : d.present (main_tex_of d) = true := by
    rcases hnn with hs | ⟨hl, _⟩
    · exact present_main_of_single d hs
    · cases hs : single_texture_of d
      · rw [main_tex_dual d hs]; exact hl
      · exact present_main_of_single d hs
  cases hml : d.LockRect (main_tex_of d) with
  | none =>
    exact ⟨_, update_frame_main_fail f d hp hml, by simp⟩
  | some mlock =>
    cases hs : single_texture_of d with
    | true =>
      exact ⟨_, update_frame_single_ok f d mlock hs hml, by simp [upload_and_unlock]⟩
    | false =>
      have hlc : d.luma_tex = true ∧ d.chroma_tex = true := by
        rcases hnn with h | h
        · rw [hs] at h; cases h
        · exact h
      have hml' : d.LockRect Tex.luma_tex = some mlock := by
        rw [← main_tex_dual d hs]; exact hml
      cases hcl : d.LockRect Tex.chroma_tex with
      | none =>
        exact ⟨_, update_frame_chroma_fail f d mlock hs hlc.1 hlc.2 hml' hcl, by simp⟩
      | some clock =>
        exact ⟨_, update_frame_dual_ok f d mlock clock hs hlc.1 hlc.2 hml' hcl,
          by simp [upload_and_unlock]⟩

/-- Witness of C10: the dual-surface device whose chroma lock fails. -/
theorem C10_result_value_witness :
    ∃ r, update_frame (frame_2x2 8 1) (dual_device_chroma_fails 2) = some r ∧
      (r.ret = true ↔
        (((dual_device_chroma_fails 2).LockRect
            (main_tex_of (dual_device_chroma_fails 2))).isSome = true ∧
          (single_texture_of (dual_device_chroma_fails 2) = true ∨
            ((dual_device_chroma_fails 2).LockRect Tex.chroma_tex).isSome = true))) :=
  C10_result_value (frame_2x2 8 1) (dual_device_chroma_fails 2) (Or.inr ⟨rfl, rfl⟩)

/-! ## Surface selection -/

theorem run_upload_eq_upload_frame (f : Frame) (d : Device) (mlock clock : D3DLOCKED_RECT) :
    run_upload f d mlock clock =
      upload_frame (single_texture_of d) (c_offset_of f) (bps_of f) mlock clock
        f.luma_stride f.chroma_stride (src0_of f d) (src1_of f d) (src2_of f d)
        f.luma_width f.luma_height f.chroma_width f.chroma_height
        (d.bits (main_tex_of d)) (d.bits Tex.chroma_tex) := by
  unfold run_upload bps_of c_offset_of
  cases hbd_of f <;> cases single_texture_of d <;> rfl

/-- With `single_texture` every store goes to the main destination. -/
theorem dst_of_single (g : Geometry) (h : g.single_texture = true) (k : Nat) (w : Store)
    (hw : w ∈ g.stores_upto k) : w.dst = Dst.mdst := by
  obtain ⟨y, _, x, _, hpx⟩ := (mem_stores_upto g k w).1 hw
  rcases (mem_px_single g h y x w).1 hpx with rfl | rfl | rfl <;> rfl

theorem apply_stores_of_no_dst (d : Dst) (l : List Store) (m : Buf)
    (h : ∀ w ∈ l, w.dst ≠ d) : apply_stores d l m = m := by
  funext i
  exact apply_stores_of_not_hit d i l m (fun w hw hd => absurd hd (h w hw))

/-- C11.  The single-texture path is taken exactly when `yuv444_tex` or `rgb_tex` is passed:
`single_texture` is their disjunction and it is the template argument of the `upload_frame`
instantiation that is called.  The main surface is `yuv444_tex` when passed (also when
`rgb_tex` is passed too), else `rgb_tex` when passed, else `luma_tex`.  On the single-texture
path the call returns, every event of the call (lock, write, unlock) concerns the main
surface, and the memory of the three other textures is unchanged. -/
theorem C11_surface_selection (f : Frame) (d : Device) :
    (single_texture_of d = true ↔ (d.yuv444_tex = true ∨ d.rgb_tex = true)) ∧
    (main_tex_of d =
      if d.yuv444_tex = true then Tex.yuv444_tex
      else if d.rgb_tex = true then Tex.rgb_tex else Tex.luma_tex) ∧
    (∀ mlock clock, run_upload f d mlock clock =
      upload_frame (single_texture_of d) (c_offset_of f) (bps_of f) mlock clock
        f.luma_stride f.chroma_stride (src0_of f d) (src1_of f d) (src2_of f d)
        f.luma_width f.luma_height f.chroma_width f.chroma_height
        (d.bits (main_tex_of d)) (d.bits Tex.chroma_tex)) ∧
    ((d.yuv444_tex = true ∨ d.rgb_tex = true) →
      ∃ r, update_frame f d = some r ∧
        (∀ e ∈ r.trace, e.tex = main_tex_of d) ∧
        (∀ t, t ≠ main_tex_of d → r.bits t = d.bits t)) := by
  refine ⟨by simp [single_texture_of], ?_, run_upload_eq_upload_frame f d, ?_⟩
  · unfold main_tex_of single_texture_of
    cases d.yuv444_tex <;> cases d.rgb_tex <;> rfl
  · intro hpres
    have hs := single_of_present d hpres
    cases hl : d.LockRect (main_tex_of d) with
    | none =>
      refine ⟨_, update_frame_main_fail f d (present_main_of_single d hs) hl, ?_, ?_⟩
      · intro e he
        simp only [List.mem_cons, List.mem_singleton, List.not_mem_nil, or_false] at he
        rcases he with rfl | rfl <;> rfl
      · intro t _; rfl
    | some mlock =>
      refine ⟨_, update_frame_single_ok f d mlock hs hl, ?_, ?_⟩
      · intro e he
        rw [upload_and_unlock_trace] at he
        simp only [hs, if_true, List.append_nil, List.mem_append, List.mem_singleton,
          List.mem_map] at he
        rcases he with (rfl | ⟨w, hw, rfl⟩) | rfl
        · rfl
        · have := dst_of_single (call_geometry f d mlock ⟨0⟩) hs _ w hw
          simp [event_of_store, Event.tex, tex_of_dst, this]
        · rfl
      · intro t ht
        simp [upload_and_unlock, ht, hs]

/-- Witness of C11: `yuv444_tex` and `rgb_tex` both passed; the main surface is
`yuv444_tex`. -/
theorem C11_surface_selection_witness :
    main_tex_of (yuv444_device true 8) = Tex.yuv444_tex ∧
    ∃ r, update_frame (frame_2x2 8 1) (yuv444_device true 8) = some r ∧
      (∀ e ∈ r.trace, e.tex = main_tex_of (yuv444_device true 8)) ∧
      (∀ t, t ≠ main_tex_of (yuv444_device true 8) →
        r.bits t = (yuv444_device true 8).bits t) :=
  ⟨rfl, (C11_surface_selection (frame_2x2 8 1) (yuv444_device true 8)).2.2.2 (Or.inl rfl)⟩

/-! ## Bounds of the stores -/

theorem tdiv_bounds (bps P a : Int) (hb : bps = 1 ∨ bps = 2) (ha : 0 < a)
    (h : bps * a ≤ P) : a ≤ P.tdiv bps ∧ bps * P.tdiv bps ≤ P := by
  have hP : 0 ≤ P := by rcases hb with rfl | rfl <;> omega
  rcases hb with rfl | rfl
  · rw [Int.tdiv_eq_ediv hP (by norm_num)]; omega
  · rw [Int.tdiv_eq_ediv hP (by norm_num)]; omega

/-- A store at in-row position `q` of row `y` of a surface with element stride `S` lies in
its buffer of `P * rows` bytes when the row fits and the surface has enough rows. -/
theorem in_locked_buffer_of_grid (bps P rows S y q : Int) (hb : 0 < bps)
    (hS : bps * S ≤ P) (hq0 : 0 ≤ q) (hq : q < S) (hy0 : 0 ≤ y) (hy : y < rows) :
    in_locked_buffer bps P rows (y * S + q) = true := by
  have h1 : 0 ≤ y * S := mul_nonneg hy0 (by omega)
  have h2 : 0 ≤ (rows - 1 - y) * S := mul_nonneg (by omega) (by omega)
  have h3 : y * S + q + 1 ≤ rows * S := by nlinarith
  have h4 : 0 ≤ rows * (P - bps * S) := mul_nonneg (by omega) (by omega)
  have h5 : bps * (y * S + q + 1) ≤ bps * (rows * S) := by
    apply mul_le_mul_of_nonneg_left h3 (by omega)
  have h6 : 0 ≤ bps * (y * S + q) := mul_nonneg (by omega) (by omega)
  simp only [in_locked_buffer, decide_eq_true_eq]
  constructor
  · exact h6
  · nlinarith

/-- Counterexample to C12 as stated: separate surfaces, 8-bit, luma 1x1 and chroma 1x1; the
luma buffer is 1 row of pitch 1 byte, the chroma buffer 1 row of pitch 2 bytes (one two-sample
U/V pair), so each pitch is the row's logical byte width and each buffer has the plane's
height.  The store of the second chroma sample goes to index `0 * 4 + 1 + 1 = 2`, outside the
chroma buffer of 2 bytes. -/
theorem C12_counterexample :
    (1 : Int) * 1 ≤ (⟨1⟩ : D3DLOCKED_RECT).Pitch ∧
    (1 : Int) * (2 * 1) ≤ (⟨2⟩ : D3DLOCKED_RECT).Pitch ∧ (1 : Int) ≤ 1 ∧
    (⟨Dst.cdst, 2, 9⟩ : Store) ∈
      (upload_frame false 1 1 ⟨1⟩ ⟨2⟩ 1 1 (buf_of_list [7]) (buf_of_list [8]) (buf_of_list [9])
        1 1 1 1 zero_buf zero_buf).stores ∧
    in_locked_buffer 1 2 1 2 = false := by
  decide

/-- C12, amended.  When the locked buffer of each destination holds `Pitch * rows` bytes, with
`Pitch` at least the byte width of what a row receives (luma surface: `luma_width` samples;
packed single surface: `4 * luma_width` samples; chroma surface: `chroma_width` slots of four
samples) and `rows` at least the plane height, every store of `upload_frame` lies inside the
locked buffer of its surface. -/
theorem C12_stores_in_bounds (single_texture : Bool) (c_offset bps : Int)
    (mlock clock : D3DLOCKED_RECT) (luma_stride chroma_stride : Int) (src0 src1 src2 : Buf)
    (luma_width luma_height chroma_width chroma_height : Int) (mbits cbits : Buf)
    (mrows crows : Int) (hb : bps = 1 ∨ bps = 2) (hc : c_offset = 0 ∨ c_offset = 1)
    (hmp : bps * (if single_texture = true then 4 * luma_width else luma_width) ≤ mlock.Pitch)
    (hmr : luma_height ≤ mrows)
    (hcp : single_texture = false → bps * (4 * chroma_width) ≤ clock.Pitch)
    (hcr : single_texture = false → chroma_height ≤ crows) :
    ∀ w ∈ (upload_frame single_texture c_offset bps mlock clock luma_stride chroma_stride
        src0 src1 src2 luma_width luma_height chroma_width chroma_height mbits cbits).stores,
      (w.dst = Dst.mdst → in_locked_buffer bps mlock.Pitch mrows w.idx = true) ∧
      (w.dst = Dst.cdst →
        single_texture = false ∧ in_locked_buffer bps clock.Pitch crows w.idx = true) := by
  rw [upload_frame_eq]
  intro w hw
  have hbp : 0 < bps := by rcases hb with rfl | rfl <;> norm_num
  obtain ⟨y, hy, x, hx, hpx⟩ := (mem_stores_upto _ _ w).1 hw
  have hx' : (x : Int) < luma_width := hx
  have hy' : (y : Int) < luma_height := by omega
  cases single_texture with
  | true =>
    simp only [if_true] at hmp
    obtain ⟨h1, h2⟩ := tdiv_bounds bps mlock.Pitch (4 * luma_width) hb (by omega) hmp
    have key : ∀ j : Int, 0 ≤ j → j ≤ 2 → in_locked_buffer bps mlock.Pitch mrows
        ((y : Int) * mlock.Pitch.tdiv bps + (x * 4 + j)) = true := fun j hj0 hj2 =>
      in_locked_buffer_of_grid bps mlock.Pitch mrows _ y (x * 4 + j) hbp h2 (by omega)
        (by omega) (by omega) (by omega)
    rcases (mem_px_single _ rfl y x w).1 hpx with rfl | rfl | rfl
    · exact ⟨fun _ => key 0 (by norm_num) (by norm_num), fun h => by cases h⟩
    · exact ⟨fun _ => key 1 (by norm_num) (by norm_num), fun h => by cases h⟩
    · exact ⟨fun _ => key 2 (by norm_num) (by norm_num), fun h => by cases h⟩
  | false =>
    simp only [Bool.false_eq_true, if_false] at hmp
    obtain ⟨h1, h2⟩ := tdiv_bounds bps mlock.Pitch luma_width hb (by omega) hmp
    rcases (mem_px_dual _ rfl y x w).1 hpx with rfl | ⟨⟨hxc, hyc⟩, hw'⟩
    · have key : in_locked_buffer bps mlock.Pitch mrows
          ((y : Int) * mlock.Pitch.tdiv bps + x) = true :=
        in_locked_buffer_of_grid bps mlock.Pitch mrows _ y x hbp h2 (by omega)
          (by omega) (by omega) (by omega)
      exact ⟨fun _ => key, fun h => by cases h⟩
    · have hxc' : (x : Int) < chroma_width := hxc
      have hyc' : (y : Int) < chroma_height := hyc
      obtain ⟨h3, h4⟩ := tdiv_bounds bps clock.Pitch (4 * chroma_width) hb (by omega)
        (hcp rfl)
      have hcr' := hcr rfl
      have key : ∀ j : Int, 0 ≤ j → j ≤ 1 → in_locked_buffer bps clock.Pitch crows
          ((y : Int) * clock.Pitch.tdiv bps + (x * 4 + j + c_offset)) = true :=
        fun j hj0 hj1 =>
          in_locked_buffer_of_grid bps clock.Pitch crows _ y (x * 4 + j + c_offset) hbp h4
            (by omega) (by omega) (by omega) (by omega)
      rcases hw' with rfl | rfl
      · exact ⟨fun h => (by cases h), fun _ => ⟨rfl, key 0 (by norm_num) (by norm_num)⟩⟩
      · exact ⟨fun h => (by cases h), fun _ => ⟨rfl, key 1 (by norm_num) (by norm_num)⟩⟩

/-- Witness of C12 (amended): 8-bit separate surfaces, luma 2x2 with pitch 2, chroma 2x2 with
pitch 8 bytes and 2 rows; the last chroma store, at index `1 * 8 + (1 * 4 + 1 + 1)`. -/
theorem C12_stores_in_bounds_witness :
    in_locked_buffer 1 (⟨8⟩ : D3DLOCKED_RECT).Pitch 2 (⟨Dst.cdst, 14, 8⟩ : Store).idx = true :=
  ((C12_stores_in_bounds false 1 1 ⟨2⟩ ⟨8⟩ 2 2 (buf_of_list [1, 2, 3, 4])
    (buf_of_list [9, 10, 11, 12]) (buf_of_list [5, 6, 7, 8]) 2 2 2 2 zero_buf zero_buf 2 2
    (Or.inl rfl) (Or.inr rfl) (by decide) (by decide) (fun _ => by decide)
    (fun _ => by decide) ⟨Dst.cdst, 14, 8⟩ (by decide)).2 rfl).2

/-! ## Counting stores -/

theorem countP_flatMap_const (p : Store → Bool) (f : Nat → List Store) (a : Nat)
    (h : ∀ i, List.countP p (f i) = a) (n : Nat) :
    List.countP p ((List.range n).flatMap f) = n * a := by
  induction n with
  | zero => simp
  | succ n ih =>
    rw [List.range_succ, List.flatMap_append, List.countP_append, ih]
    simp [h, Nat.succ_mul]

theorem countP_flatMap_below (p : Store → Bool) (f : Nat → List Store) (a : Nat) (b : Int)
    (h : ∀ i : Nat, List.countP p (f i) = if (i : Int) < b then a else 0) (n : Nat) :
    List.countP p ((List.range n).flatMap f) = a * (min (n : Int) b).toNat := by
  induction n with
  | zero => simp
  | succ n ih =>
    rw [List.range_succ, List.flatMap_append, List.countP_append, ih]
    simp only [List.flatMap_singleton, h]
    by_cases hb : (n : Int) < b
    · have e : (min ((n + 1 : Nat) : Int) b).toNat = (min (n : Int) b).toNat + 1 := by omega
      rw [e, if_pos hb, Nat.mul_succ]
    · have e : (min ((n + 1 : Nat) : Int) b).toNat = (min (n : Int) b).toNat := by omega
      rw [e, if_neg hb, Nat.add_zero]

theorem stores_to_upto_m_dual (g : Geometry) (h : g.single_texture = false) (k : Nat) :
    stores_to Dst.mdst (g.stores_upto k) = k * g.luma_width.toNat := by
  unfold stores_to Geometry.stores_upto
  apply countP_flatMap_const
  intro y
  unfold Geometry.row_stores
  rw [countP_flatMap_const _ _ 1, Nat.mul_one]
  intro x
  unfold Geometry.px_stores dual_px_stores
  simp only [h, Bool.false_eq_true, if_false]
  split <;> simp [List.countP_cons]

theorem stores_to_upto_c_dual (g : Geometry) (h : g.single_texture = false) (k : Nat) :
    stores_to Dst.cdst (g.stores_upto k) =
      2 * (min g.chroma_width g.luma_width).toNat *
        (min (k : Int) g.chroma_height).toNat := by
  unfold stores_to Geometry.stores_upto
  apply countP_flatMap_below
  intro y
  unfold Geometry.row_stores
  by_cases hy : (y : Int) < g.chroma_height
  · rw [if_pos hy, countP_flatMap_below _ _ 2 g.chroma_width]
    · have e : (min ((g.luma_width.toNat : Nat) : Int) g.chroma_width).toNat =
          (min g.chroma_width g.luma_width).toNat := by omega
      rw [e]
    · intro x
      unfold Geometry.px_stores dual_px_stores
      simp only [h, Bool.false_eq_true, if_false, hy, and_true]
      split <;> simp [List.countP_cons]
  · rw [if_neg hy, countP_flatMap_const _ _ 0, Nat.mul_zero]
    intro x
    unfold Geometry.px_stores dual_px_stores
    simp [h, hy, List.countP_cons]

theorem state_at_stores (g : Geometry) (m c : Buf) (k : Nat) :
    (g.state_at m c k).stores = g.stores_upto k := rfl

theorem mdst_store_form_dual (g : Geometry) (h : g.single_texture = false) (k : Nat)
    (w : Store) (hw : w ∈ g.stores_upto k) (hd : w.dst = Dst.mdst) :
    ∃ x y : Nat, (x : Int) < g.luma_width ∧ y < k ∧ w.idx = y * g.mdst_stride + x := by
  obtain ⟨y, hy, x, hx, hpx⟩ := (mem_stores_upto g k w).1 hw
  rcases (mem_px_dual g h y x w).1 hpx with rfl | ⟨_, rfl | rfl⟩
  · exact ⟨x, y, hx, hy, rfl⟩
  · simp at hd
  · simp at hd

/-- C13.  In separate-surface mode `upload_frame` executes exactly
`luma_width * luma_height` stores to the luma surface, one per position `(x, y)` of the luma
region, and exactly `2 * (min chroma_width luma_width * min chroma_height luma_height)`
stores to the chroma surface, two (one U/V pair) per column
`x < min chroma_width luma_width` of each row `y < min chroma_height luma_height`; when the
destination strides are at least the row widths, no two of these stores go to the same
offset.  (Dimensions are counted from `0`: the counts are stated with `Int.toNat` and, for
non-negative dimensions, as the integer products.) -/
theorem C13_dual_write_counts (c_offset bps : Int) (mlock clock : D3DLOCKED_RECT)
    (luma_stride chroma_stride : Int) (src0 src1 src2 : Buf)
    (luma_width luma_height chroma_width chroma_height : Int) (mbits cbits : Buf) :
    stores_to Dst.mdst
        (upload_frame false c_offset bps mlock clock luma_stride chroma_stride src0 src1 src2
          luma_width luma_height chroma_width chroma_height mbits cbits).stores =
      luma_width.toNat * luma_height.toNat ∧
    stores_to Dst.cdst
        (upload_frame false c_offset bps mlock clock luma_stride chroma_stride src0 src1 src2
          luma_width luma_height chroma_width chroma_height mbits cbits).stores =
      2 * ((min chroma_width luma_width).toNat * (min chroma_height luma_height).toNat) ∧
    (0 ≤ luma_width → 0 ≤ luma_height → 0 ≤ chroma_width → 0 ≤ chroma_height →
      (stores_to Dst.mdst
          (upload_frame false c_offset bps mlock clock luma_stride chroma_stride src0 src1
            src2 luma_width luma_height chroma_width chroma_height mbits cbits).stores : Int) =
        luma_width * luma_height ∧
      (stores_to Dst.cdst
          (upload_frame false c_offset bps mlock clock luma_stride chroma_stride src0 src1
            src2 luma_width luma_height chroma_width chroma_height mbits cbits).stores : Int) =
        2 * (min chroma_width luma_width * min chroma_height luma_height)) ∧
    (∀ w ∈ (upload_frame false c_offset bps mlock clock luma_stride chroma_stride src0 src1
          src2 luma_width luma_height chroma_width chroma_height mbits cbits).stores,
      (w.dst = Dst.mdst → ∃ x y : Int, 0 ≤ x ∧ x < luma_width ∧ 0 ≤ y ∧ y < luma_height ∧
        w.idx = y * mdst_stride_of bps mlock + x) ∧
      (w.dst = Dst.cdst → ∃ x y : Int, 0 ≤ x ∧ x < min chroma_width luma_width ∧ 0 ≤ y ∧
        y < min chroma_height luma_height ∧
        (w.idx = y * cdst_stride_of false bps clock + (x * 4 + 0 + c_offset) ∨
         w.idx = y * cdst_stride_of false bps clock + (x * 4 + 1 + c_offset)))) ∧
    (luma_width ≤ mdst_stride_of bps mlock →
      NoClash Dst.mdst
        (upload_frame false c_offset bps mlock clock luma_stride chroma_stride src0 src1 src2
          luma_width luma_height chroma_width chroma_height mbits cbits).stores) ∧
    (4 * min chroma_width luma_width ≤ cdst_stride_of false bps clock →
      NoClash Dst.cdst
        (upload_frame false c_offset bps mlock clock luma_stride chroma_stride src0 src1 src2
          luma_width luma_height chroma_width chroma_height mbits cbits).stores) := by
  rw [upload_frame_eq, state_at_stores]
  have hm : stores_to Dst.mdst ((geometry_of false c_offset bps mlock clock luma_stride
      chroma_stride src0 src1 src2 luma_width chroma_width chroma_height).stores_upto
        luma_height.toNat) = luma_width.toNat * luma_height.toNat := by
    rw [stores_to_upto_m_dual _ rfl, Nat.mul_comm]
    rfl
  have hc : stores_to Dst.cdst ((geometry_of false c_offset bps mlock clock luma_stride
      chroma_stride src0 src1 src2 luma_width chroma_width chroma_height).stores_upto
        luma_height.toNat) =
      2 * ((min chroma_width luma_width).toNat * (min chroma_height luma_height).toNat) := by
    rw [stores_to_upto_c_dual _ rfl]
    have e : (min ((luma_height.toNat : Nat) : Int) chroma_height).toNat =
        (min chroma_height luma_height).toNat := by omega
    show 2 * (min chroma_width luma_width).toNat *
      (min ((luma_height.toNat : Nat) : Int) chroma_height).toNat = _
    rw [e, Nat.mul_assoc]
  refine ⟨hm, hc, ?_, ?_, ?_, ?_⟩
  · intro h1 h2 h3 h4
    show ((stores_to Dst.mdst _ : Nat) : Int) = _ ∧ ((stores_to Dst.cdst _ : Nat) : Int) = _
    rw [hm, hc]
    push_cast
    have e1 : ((luma_width.toNat : Nat) : Int) = luma_width := by omega
    have e2 : ((luma_height.toNat : Nat) : Int) = luma_height := by omega
    have e3 : (((min chroma_width luma_width).toNat : Nat) : Int) =
        min chroma_width luma_width := by omega
    have e4 : (((min chroma_height luma_height).toNat : Nat) : Int) =
        min chroma_height luma_height := by omega
    rw [e1, e2, e3, e4]
    exact ⟨rfl, rfl⟩
  · intro w hw
    constructor
    · intro hd
      obtain ⟨x, y, hx, hy, hidx⟩ := mdst_store_form_dual _ rfl _ w hw hd
      have hx' : (x : Int) < luma_width := hx
      exact ⟨x, y, by omega, hx', by omega, by omega, hidx⟩
    · intro hd
      obtain ⟨x, y, hxc, hxl, hyc, hy, hidx⟩ := cdst_store_form _ rfl _ w hw hd
      have hxc' : (x : Int) < chroma_width := hxc
      have hxl' : (x : Int) < luma_width := hxl
      have hyc' : (y : Int) < chroma_height := hyc
      exact ⟨x, y, by omega, by omega, by omega, by omega, hidx⟩
  · intro h
    exact noClash_dual_m _ rfl h _
  · intro h
    exact noClash_dual_c _ rfl h _

/-- Witness of C13: 16-bit samples (10-bit depth), luma 4x2, chroma 2x1: 8 luma stores and 2
U/V pairs. -/
theorem C13_dual_write_counts_witness :
    (stores_to Dst.mdst
        (upload_frame false 0 2 ⟨16⟩ ⟨16⟩ 8 4 (buf_of_list [1, 2, 3, 4, 5, 6, 7, 8])
          (buf_of_list [9, 10]) (buf_of_list [11, 12]) 4 2 2 1 zero_buf zero_buf).stores : Int) =
      4 * 2 ∧
    (stores_to Dst.cdst
        (upload_frame false 0 2 ⟨16⟩ ⟨16⟩ 8 4 (buf_of_list [1, 2, 3, 4, 5, 6, 7, 8])
          (buf_of_list [9, 10]) (buf_of_list [11, 12]) 4 2 2 1 zero_buf zero_buf).stores : Int) =
      2 * (min 2 4 * min 1 2) :=
  (C13_dual_write_counts 0 2 ⟨16⟩ ⟨16⟩ 8 4 (buf_of_list [1, 2, 3, 4, 5, 6, 7, 8])
    (buf_of_list [9, 10]) (buf_of_list [11, 12]) 4 2 2 1 zero_buf zero_buf).2.2.1
    (by decide) (by decide) (by decide) (by decide)

/-! ## RGB and YUV444 -/

theorem writes_of_append (l₁ l₂ : List Event) :
    writes_of (l₁ ++ l₂) = writes_of l₁ ++ writes_of l₂ := by
  simp [writes_of, List.filterMap_append]

theorem writes_of_map (d : Device) (l : List Store) :
    writes_of (l.map (event_of_store d)) = l.map (fun w => (w.idx, w.val)) := by
  induction l with
  | nil => rfl
  | cons w l ih =>
    simp only [List.map_cons]
    rw [← ih]
    simp [writes_of, event_of_store, List.filterMap_cons]

theorem writes_of_upload_and_unlock (f : Frame) (d : Device) (mlock clock : D3DLOCKED_RECT)
    (evs : List Event) (hevs : writes_of evs = []) :
    writes_of (upload_and_unlock f d mlock clock evs).trace =
      ((call_geometry f d mlock clock).stores_upto f.luma_height.toNat).map
        (fun w => (w.idx, w.val)) := by
  rw [upload_and_unlock_trace, writes_of_append, writes_of_append, writes_of_append, hevs,
    writes_of_map]
  have h1 : writes_of [Event.unlockRect (main_tex_of d)] = [] := rfl
  have h2 : writes_of (if single_texture_of d = true then []
      else [Event.unlockRect Tex.chroma_tex]) = [] := by
    split <;> rfl
  rw [h1, h2]
  simp

theorem call_geometry_single (f : Frame) (d : Device) (mlock clock : D3DLOCKED_RECT)
    (hs : single_texture_of d = true) :
    call_geometry f d mlock clock =
      geometry_of true (c_offset_of f) (bps_of f) mlock clock f.luma_stride f.chroma_stride
        (if hbd_of f then f.plane0_read else f.plane2_read) f.plane1_read
        (if hbd_of f then f.plane2_read else f.plane0_read)
        f.luma_width f.chroma_width f.chroma_height := by
  simp [call_geometry, src0_of, src1_of, src2_of, hs]

/-- Counterexample to C14 as stated: the 8-bit 2x2 frame, once on `rgb_tex` and once on
`yuv444_tex`, both with pitch 8.  The triple at column 0 of row 0 is `(9, 5, 1)` on
`yuv444_tex`, so the claim puts `(1, 5, 9)` on `rgb_tex`; the code writes `(9, 5, 1)` there
too. -/
theorem C14_counterexample :
    ∃ r_rgb r_yuv, update_frame (frame_2x2 8 1) (rgb_device 8) = some r_rgb ∧
      update_frame (frame_2x2 8 1) (yuv444_device false 8) = some r_yuv ∧
      r_yuv.bits Tex.yuv444_tex 0 = 9 ∧ r_yuv.bits Tex.yuv444_tex 1 = 5 ∧
      r_yuv.bits Tex.yuv444_tex 2 = 1 ∧
      r_rgb.bits Tex.rgb_tex 0 = 9 ∧ r_rgb.bits Tex.rgb_tex 1 = 5 ∧
      r_rgb.bits Tex.rgb_tex 2 = 1 := by
  refine ⟨_, _, rfl, rfl, ?_⟩
  decide

/-- C14, amended.  For every frame and bit depth, a call with `rgb_tex` as main surface
(`rgb_tex` passed, `yuv444_tex` not) and a call with `yuv444_tex` as main surface, with the
same lock result, execute the same stores (same offsets, same values, same order): the triple
written at each column of `rgb_tex` is the triple written at the same column of
`yuv444_tex`, in the same channel order; started from the same memory, both surfaces end
with the same contents. -/
theorem C14_rgb_same_as_yuv444 (f : Frame) (d_rgb d_yuv : Device) (mlock : D3DLOCKED_RECT)
    (h1 : d_rgb.yuv444_tex = false) (h2 : d_rgb.rgb_tex = true)
    (h3 : d_yuv.yuv444_tex = true)
    (hl1 : d_rgb.LockRect Tex.rgb_tex = some mlock)
    (hl2 : d_yuv.LockRect Tex.yuv444_tex = some mlock) :
    ∃ r_rgb r_yuv, update_frame f d_rgb = some r_rgb ∧ update_frame f d_yuv = some r_yuv ∧
      r_rgb.ret = true ∧ r_yuv.ret = true ∧
      writes_of r_rgb.trace = writes_of r_yuv.trace ∧
      (d_rgb.bits Tex.rgb_tex = d_yuv.bits Tex.yuv444_tex →
        r_rgb.bits Tex.rgb_tex = r_yuv.bits Tex.yuv444_tex) := by
  have hs1 : single_texture_of d_rgb = true := single_of_present d_rgb (Or.inr h2)
  have hs2 : single_texture_of d_yuv = true := single_of_present d_yuv (Or.inl h3)
  have hm1 : main_tex_of d_rgb = Tex.rgb_tex := by simp [main_tex_of, hs1, h1]
  have hm2 : main_tex_of d_yuv = Tex.yuv444_tex := by simp [main_tex_of, hs2, h3]
  have hg : call_geometry f d_rgb mlock ⟨0⟩ = call_geometry f d_yuv mlock ⟨0⟩ := by
    rw [call_geometry_single f d_rgb mlock ⟨0⟩ hs1, call_geometry_single f d_yuv mlock ⟨0⟩ hs2]
  refine ⟨_, _, update_frame_single_ok f d_rgb mlock hs1 (by rw [hm1]; exact hl1),
    update_frame_single_ok f d_yuv mlock hs2 (by rw [hm2]; exact hl2), rfl, rfl, ?_, ?_⟩
  · rw [writes_of_upload_and_unlock f d_rgb mlock ⟨0⟩ [Event.lockRect (main_tex_of d_rgb) true]
        rfl,
      writes_of_upload_and_unlock f d_yuv mlock ⟨0⟩ [Event.lockRect (main_tex_of d_yuv) true]
        rfl, hg]
  · intro hbits
    rw [← hm1, ← hm2] at hbits ⊢
    rw [upload_and_unlock_bits_main, upload_and_unlock_bits_main, hg]
    simp only [Geometry.state_at]
    rw [hbits]

/-- Witness of C14 (amended): the 8-bit 2x2 frame on `rgb_tex` and on `yuv444_tex`, pitch 8. -/
theorem C14_rgb_same_as_yuv444_witness :
    ∃ r_rgb r_yuv, update_frame (frame_2x2 8 1) (rgb_device 8) = some r_rgb ∧
      update_frame (frame_2x2 8 1) (yuv444_device false 8) = some r_yuv ∧
      r_rgb.ret = true ∧ r_yuv.ret = true ∧
      writes_of r_rgb.trace = writes_of r_yuv.trace ∧
      ((rgb_device 8).bits Tex.rgb_tex = (yuv444_device false 8).bits Tex.yuv444_tex →
        r_rgb.bits Tex.rgb_tex = r_yuv.bits Tex.yuv444_tex) :=
  C14_rgb_same_as_yuv444 (frame_2x2 8 1) (rgb_device 8) (yuv444_device false 8) ⟨8⟩
    rfl rfl rfl rfl rfl

/-! ## Idempotence -/

theorem apply_stores_congr_of_hit (d : Dst) (i : Int) (l : List Store) (m m' : Buf)
    (hex : ∃ w ∈ l, w.dst = d ∧ w.idx = i) :
    apply_stores d l m i = apply_stores d l m' i := by
  induction l using List.reverseRecOn with
  | nil => simp at hex
  | append_singleton l w ih =>
    rw [apply_stores_append, apply_stores_append]
    by_cases hw : w.dst = d ∧ w.idx = i
    · simp [apply_stores, hw.1, poke, hw.2]
    · have hex' : ∃ w' ∈ l, w'.dst = d ∧ w'.idx = i := by
        obtain ⟨w', hw', hd'⟩ := hex
        rcases List.mem_append.1 hw' with h1 | h1
        · exact ⟨w', h1, hd'⟩
        · simp at h1; subst h1; exact absurd hd' hw
      have hl := ih hex'
      by_cases hd : w.dst = d
      · have hne : i ≠ w.idx := fun e => hw ⟨hd, e.symm⟩
        simp [apply_stores, hd, poke, hne] at hl ⊢
        exact hl
      · simp [apply_stores, hd] at hl ⊢
        exact hl

/-- Replaying a list of stores on its own result changes nothing. -/
theorem apply_stores_idem (d : Dst) (l : List Store) (m : Buf) :
    apply_stores d l (apply_stores d l m) = apply_stores d l m := by
  funext i
  by_cases hex : ∃ w ∈ l, w.dst = d ∧ w.idx = i
  · exact apply_stores_congr_of_hit d i l _ _ hex
  · apply apply_stores_of_not_hit
    intro w hw hd e
    exact hex ⟨w, hw, hd, e⟩

/-- C15.  Idempotence, in each specialisation (any `single_texture`, `c_offset`, `bps`): a
second call of `upload_frame` with the same arguments, on the destination memory the first
call produced, leaves both destinations as the first call left them, and executes the same
stores.  (Source planes and destinations are separate buffers in the embedding, which is the
condition that the sources do not overlap the destination.) -/
theorem C15_upload_idempotent (single_texture : Bool) (c_offset bps : Int)
    (mlock clock : D3DLOCKED_RECT) (luma_stride chroma_stride : Int) (src0 src1 src2 : Buf)
    (luma_width luma_height chroma_width chroma_height : Int) (mbits cbits : Buf) :
    (upload_frame single_texture c_offset bps mlock clock luma_stride chroma_stride
        src0 src1 src2 luma_width luma_height chroma_width chroma_height
        (upload_frame single_texture c_offset bps mlock clock luma_stride chroma_stride
          src0 src1 src2 luma_width luma_height chroma_width chroma_height mbits cbits).mbits
        (upload_frame single_texture c_offset bps mlock clock luma_stride chroma_stride
          src0 src1 src2 luma_width luma_height chroma_width chroma_height mbits
          cbits).cbits).mbits =
      (upload_frame single_texture c_offset bps mlock clock luma_stride chroma_stride
        src0 src1 src2 luma_width luma_height chroma_width chroma_height mbits cbits).mbits ∧
    (upload_frame single_texture c_offset bps mlock clock luma_stride chroma_stride
        src0 src1 src2 luma_width luma_height chroma_width chroma_height
        (upload_frame single_texture c_offset bps mlock clock luma_stride chroma_stride
          src0 src1 src2 luma_width luma_height chroma_width chroma_height mbits cbits).mbits
        (upload_frame single_texture c_offset bps mlock clock luma_stride chroma_stride
          src0 src1 src2 luma_width luma_height chroma_width chroma_height mbits
          cbits).cbits).cbits =
      (upload_frame single_texture c_offset bps mlock clock luma_stride chroma_stride
        src0 src1 src2 luma_width luma_height chroma_width chroma_height mbits cbits).cbits ∧
    (upload_frame single_texture c_offset bps mlock clock luma_stride chroma_stride
        src0 src1 src2 luma_width luma_height chroma_width chroma_height
        (upload_frame single_texture c_offset bps mlock clock luma_stride chroma_stride
          src0 src1 src2 luma_width luma_height chroma_width chroma_height mbits cbits).mbits
        (upload_frame single_texture c_offset bps mlock clock luma_stride chroma_stride
          src0 src1 src2 luma_width luma_height chroma_width chroma_height mbits
          cbits).cbits).stores =
      (upload_frame single_texture c_offset bps mlock clock luma_stride chroma_stride
        src0 src1 src2 luma_width luma_height chroma_width chroma_height mbits cbits).stores := by
  simp only [upload_frame_eq, Geometry.state_at, apply_stores_idem, and_self]

/-! ## The lock window -/

theorem locked_after_append_singleton (t : Tex) (l : List Event) (a : Event) :
    locked_after t (l ++ [a]) =
      (match a with
        | Event.lockRect t' true => if t' = t then true else locked_after t l
        | Event.unlockRect t' => if t' = t then false else locked_after t l
        | _ => locked_after t l) := by
  simp only [locked_after, List.foldl_append, List.foldl_cons, List.foldl_nil]

theorem locked_after_of_mem (t : Tex) (l : List Event)
    (h1 : Event.lockRect t true ∈ l) (h2 : Event.unlockRect t ∉ l) :
    locked_after t l = true := by
  induction l using List.reverseRecOn with
  | nil => simp at h1
  | append_singleton l a ih =>
    rw [locked_after_append_singleton]
    have h2l : Event.unlockRect t ∉ l := fun h => h2 (by simp [h])
    have h2a : a ≠ Event.unlockRect t := fun h => h2 (by simp [h])
    by_cases ha : a = Event.lockRect t true
    · subst ha; simp
    · have h1l : Event.lockRect t true ∈ l := by
        rcases List.mem_append.1 h1 with h | h
        · exact h
        · simp at h; exact absurd h.symm ha
      have := ih h1l h2l
      cases a with
      | lockRect t' ok => cases ok <;> simp [this]
      | unlockRect t' =>
        have : t' ≠ t := fun e => h2a (by rw [e])
        simp [*]
      | write t' i v => simp [this]

/-- In a trace made of successful locks, then writes to locked textures, then unlocks, every
write lies inside the lock window of its texture. -/
theorem window_of_split (L W U pre post : List Event) (t : Tex) (i : Int) (v : Nat)
    (hL : ∀ a ∈ L, ∃ t', a = Event.lockRect t' true)
    (hW : ∀ a ∈ W, ∃ t' i' v', a = Event.write t' i' v' ∧ Event.lockRect t' true ∈ L ∧
      Event.unlockRect t' ∈ U)
    (hU : ∀ a ∈ U, ∃ t', a = Event.unlockRect t')
    (hsplit : L ++ W ++ U = pre ++ Event.write t i v :: post) :
    Event.lockRect t true ∈ pre ∧ Event.unlockRect t ∉ pre ∧
      Event.unlockRect t ∈ post := by
  have hnL : Event.write t i v ∉ L := fun h => by
    obtain ⟨t', e⟩ := hL _ h; cases e
  have hnU : Event.write t i v ∉ U := fun h => by
    obtain ⟨t', e⟩ := hU _ h; cases e
  have hnuL : Event.unlockRect t ∉ L := fun h => by
    obtain ⟨t', e⟩ := hL _ h; cases e
  have hnuW : Event.unlockRect t ∉ W := fun h => by
    obtain ⟨t', i', v', e, _⟩ := hW _ h; cases e
  rw [List.append_assoc, List.append_eq_append_iff] at hsplit
  rcases hsplit with ⟨a', rfl, h2⟩ | ⟨c', rfl, h2⟩
  · rw [List.append_eq_append_iff] at h2
    rcases h2 with ⟨x, rfl, h3⟩ | ⟨y, rfl, h3⟩
    · exact absurd (by rw [h3]; simp) hnU
    · cases y with
      | nil =>
        simp only [List.nil_append] at h3
        exact absurd (by rw [← h3]; simp) hnU
      | cons b y' =>
        simp only [List.cons_append, List.cons.injEq] at h3
        obtain ⟨rfl, rfl⟩ := h3
        obtain ⟨t', i', v', e, hl, hu⟩ := hW (Event.write t i v) (by simp)
        cases e
        refine ⟨by simp [hl], ?_, by simp [hu]⟩
        intro h
        rcases List.mem_append.1 h with h | h
        · exact hnuL h
        · exact hnuW (by simp [h])
  · cases c' with
    | nil =>
      simp only [List.nil_append, List.append_nil] at h2 hL hW hnL hnuL
      have h2' := h2.symm
      rw [List.append_eq_cons_iff] at h2'
      rcases h2' with ⟨rfl, h3⟩ | ⟨W', rfl, rfl⟩
      · exact absurd (by rw [h3]; simp) hnU
      · obtain ⟨t', i', v', e, hl, hu⟩ := hW (Event.write t i v) (by simp)
        cases e
        exact ⟨hl, hnuL, by simp [hu]⟩
    | cons b c'' =>
      simp only [List.cons_append, List.cons.injEq] at h2
      exact absurd (by rw [h2.1]; simp) hnL

theorem upload_and_unlock_window (f : Frame) (d : Device) (mlock clock : D3DLOCKED_RECT)
    (evs : List Event)
    (hevs : evs = if single_texture_of d = true then [Event.lockRect (main_tex_of d) true]
      else [Event.lockRect (main_tex_of d) true, Event.lockRect Tex.chroma_tex true])
    (pre post : List Event) (t : Tex) (i : Int) (v : Nat)
    (hsplit : (upload_and_unlock f d mlock clock evs).trace =
      pre ++ Event.write t i v :: post) :
    Event.lockRect t true ∈ pre ∧ Event.unlockRect t ∉ pre ∧
      Event.unlockRect t ∈ post := by
  rw [upload_and_unlock_trace, List.append_assoc] at hsplit
  refine window_of_split evs _ _ pre post t i v ?_ ?_ ?_ hsplit
  · intro a ha
    rw [hevs] at ha
    split at ha
    · simp only [List.mem_singleton] at ha
      exact ⟨_, ha⟩
    · simp only [List.mem_cons, List.mem_singleton, List.not_mem_nil, or_false] at ha
      rcases ha with rfl | rfl
      · exact ⟨_, rfl⟩
      · exact ⟨_, rfl⟩
  · intro a ha
    obtain ⟨w, hw, rfl⟩ := List.mem_map.1 ha
    refine ⟨tex_of_dst d w.dst, w.idx, w.val, rfl, ?_⟩
    cases hs : single_texture_of d with
    | true =>
      have hd := dst_of_single (call_geometry f d mlock clock) hs _ w hw
      simp [hevs, hs, hd, tex_of_dst]
    | false =>
      cases hd : w.dst <;> simp [hevs, hs, tex_of_dst]
  · intro a ha
    rcases List.mem_append.1 ha with h | h
    · simp only [List.mem_singleton] at h
      exact ⟨_, h⟩
    · split at h
      · simp at h
      · simp only [List.mem_singleton] at h
        exact ⟨_, h⟩

/-- C16.  In the trace of every call of `update_frame` that returns, each write to a texture
comes after a successful `LockRect` of that texture and before any `UnlockRect` of it: no
`UnlockRect` of the texture precedes the write, the texture is locked when the write
happens, and its `UnlockRect` follows.  A texture whose lock was not acquired is never
written. -/
theorem C16_writes_inside_lock_window (f : Frame) (d : Device) (r : Outcome)
    (h : update_frame f d = some r) :
    (∀ (pre post : List Event) (t : Tex) (i : Int) (v : Nat),
      r.trace = pre ++ Event.write t i v :: post →
      Event.lockRect t true ∈ pre ∧ Event.unlockRect t ∉ pre ∧
        locked_after t pre = true ∧ Event.unlockRect t ∈ post) ∧
    (∀ t, Event.lockRect t true ∉ r.trace → ∀ i v, Event.write t i v ∉ r.trace) := by
  have key : ∀ (pre post : List Event) (t : Tex) (i : Int) (v : Nat),
      r.trace = pre ++ Event.write t i v :: post →
      Event.lockRect t true ∈ pre ∧ Event.unlockRect t ∉ pre ∧
        Event.unlockRect t ∈ post := by
    intro pre post t i v hsplit
    have hmem : Event.write t i v ∈ r.trace := by rw [hsplit]; simp
    rcases update_frame_cases f d r h with ⟨hl, rfl⟩ | ⟨mlock, hl, hs, rfl⟩ |
      ⟨mlock, hl, hs, hcl, rfl⟩ | ⟨mlock, clock, hl, hs, hcl, rfl⟩
    · simp at hmem
    · exact upload_and_unlock_window f d mlock ⟨0⟩ _ (by simp [hs]) pre post t i v hsplit
    · simp at hmem
    · exact upload_and_unlock_window f d mlock clock _ (by simp [hs]) pre post t i v hsplit
  constructor
  · intro pre post t i v hsplit
    obtain ⟨h1, h2, h3⟩ := key pre post t i v hsplit
    exact ⟨h1, h2, locked_after_of_mem t pre h1 h2, h3⟩
  · intro t hnl i v hmem
    obtain ⟨pre, post, hsplit⟩ := List.append_of_mem hmem
    exact hnl (by rw [hsplit]; simp [(key pre post t i v hsplit).1])

/-- Witness of C16: the one-pixel 8-bit frame on `rgb_tex`; the second of its three writes
lies between the lock and the unlock. -/
theorem C16_writes_inside_lock_window_witness :
    Event.lockRect Tex.rgb_tex true ∈
        [Event.lockRect Tex.rgb_tex true, Event.write Tex.rgb_tex 0 3] ∧
      Event.unlockRect Tex.rgb_tex ∉
        [Event.lockRect Tex.rgb_tex true, Event.write Tex.rgb_tex 0 3] ∧
      locked_after Tex.rgb_tex
        [Event.lockRect Tex.rgb_tex true, Event.write Tex.rgb_tex 0 3] = true ∧
      Event.unlockRect Tex.rgb_tex ∈
        [Event.write Tex.rgb_tex 2 1, Event.unlockRect Tex.rgb_tex] :=
  (C16_writes_inside_lock_window frame_1x1 (rgb_device 4)
    (upload_and_unlock frame_1x1 (rgb_device 4) ⟨4⟩ ⟨0⟩ [Event.lockRect Tex.rgb_tex true])
    rfl).1 [Event.lockRect Tex.rgb_tex true, Event.write Tex.rgb_tex 0 3]
    [Event.write Tex.rgb_tex 2 1, Event.unlockRect Tex.rgb_tex] Tex.rgb_tex 1 2 rfl

/-! ## Sample width and strides -/

theorem bps_of_cases (f : Frame) : bps_of f = 1 ∨ bps_of f = 2 := by
  unfold bps_of
  cases hbd_of f <;> simp

theorem elem_stride_exact (bps stride : Int) (hb : bps = 1 ∨ bps = 2) (h : bps ∣ stride) :
    bps * elem_stride bps stride = stride := by
  unfold elem_stride
  rcases hb with rfl | rfl
  · simp
  · simpa using Int.mul_tdiv_cancel' h

theorem row_offset_bytes (bps S P y q : Int) (h : bps * S = P) :
    bps * (y * S + q) = y * P + q * bps := by
  rw [← h]; ring

/-- The stores of a call, characterised with integer coordinates. -/
theorem mem_stores_iff (g : Geometry) (k : Nat) (w : Store) :
    w ∈ g.stores_upto k ↔
      ∃ x y : Int, 0 ≤ x ∧ x < g.luma_width ∧ 0 ≤ y ∧ y < k ∧
        if g.single_texture = true then
          w = ⟨Dst.mdst, y * g.mdst_stride + (x * 4 + 0), g.src0 (y * g.luma_stride + x)⟩ ∨
          w = ⟨Dst.mdst, y * g.mdst_stride + (x * 4 + 1), g.src1 (y * g.chroma_stride + x)⟩ ∨
          w = ⟨Dst.mdst, y * g.mdst_stride + (x * 4 + 2), g.src2 (y * g.chroma_stride + x)⟩
        else
          w = ⟨Dst.mdst, y * g.mdst_stride + x, g.src0 (y * g.luma_stride + x)⟩ ∨
          ((x < g.chroma_width ∧ y < g.chroma_height) ∧
            (w = ⟨Dst.cdst, y * g.cdst_stride + (x * 4 + 0 + g.c_offset),
                  g.src1 (y * g.chroma_stride + x)⟩ ∨
             w = ⟨Dst.cdst, y * g.cdst_stride + (x * 4 + 1 + g.c_offset),
                  g.src2 (y * g.chroma_stride + x)⟩)) := by
  rw [mem_stores_upto]
  constructor
  · rintro ⟨y, hy, x, hx, hpx⟩
    refine ⟨x, y, by omega, hx, by omega, by omega, ?_⟩
    cases hs : g.single_texture with
    | true => simpa using (mem_px_single g hs y x w).1 hpx
    | false => simpa using (mem_px_dual g hs y x w).1 hpx
  · rintro ⟨x, y, hx0, hx, hy0, hy, hw⟩
    have ex : ((x.toNat : Nat) : Int) = x := by omega
    have ey : ((y.toNat : Nat) : Int) = y := by omega
    refine ⟨y.toNat, by omega, x.toNat, by omega, ?_⟩
    cases hs : g.single_texture with
    | true =>
      rw [mem_px_single g hs, ex, ey]
      simpa [hs] using hw
    | false =>
      rw [mem_px_dual g hs, ex, ey]
      simpa [hs] using hw

/-- C17.  `update_frame` calls the `upload_frame` instantiation with sample width `bps = 1`
when `bit_depth ≤ 8` and `bps = 2` when `bit_depth > 8` (so 8 gives 1 and 9 gives 2), the one
width serving the source strides and the destination pitches.  When that width divides every
byte pitch and stride, the element strides the code computes lose nothing: element `q` of
row `y` is at byte offset `y * stride_bytes + q * bps`, for the planes (`src0` with
`luma_stride`, `src1` and `src2` with `chroma_stride`) and for both destinations.  The stores
of the call are exactly the copies of the source element of row `y`, column `x` to its
in-row position of destination row `y`: every stored value is the source sample itself. -/
theorem C17_sample_width_and_strides (f : Frame) (d : Device) (mlock clock : D3DLOCKED_RECT)
    (hmp : bps_of f ∣ mlock.Pitch) (hcp : bps_of f ∣ clock.Pitch)
    (hls : bps_of f ∣ f.luma_stride) (hcs : bps_of f ∣ f.chroma_stride) :
    ((f.bit_depth ≤ 8 → bps_of f = 1) ∧ (f.bit_depth > 8 → bps_of f = 2)) ∧
    run_upload f d mlock clock =
      upload_frame (single_texture_of d) (c_offset_of f) (bps_of f) mlock clock
        f.luma_stride f.chroma_stride (src0_of f d) (src1_of f d) (src2_of f d)
        f.luma_width f.luma_height f.chroma_width f.chroma_height
        (d.bits (main_tex_of d)) (d.bits Tex.chroma_tex) ∧
    (∀ y q : Int,
      bps_of f * (y * elem_stride (bps_of f) f.luma_stride + q) =
        y * f.luma_stride + q * bps_of f ∧
      bps_of f * (y * elem_stride (bps_of f) f.chroma_stride + q) =
        y * f.chroma_stride + q * bps_of f ∧
      bps_of f * (y * mdst_stride_of (bps_of f) mlock + q) =
        y * mlock.Pitch + q * bps_of f ∧
      bps_of f * (y * clock.Pitch.tdiv (bps_of f) + q) =
        y * clock.Pitch + q * bps_of f) ∧
    (∀ w : Store, w ∈ (run_upload f d mlock clock).stores ↔
      ∃ x y : Int, 0 ≤ x ∧ x < f.luma_width ∧ 0 ≤ y ∧ y < f.luma_height ∧
        if single_texture_of d = true then
          w = ⟨Dst.mdst, y * mdst_stride_of (bps_of f) mlock + (x * 4 + 0),
                src0_of f d (y * elem_stride (bps_of f) f.luma_stride + x)⟩ ∨
          w = ⟨Dst.mdst, y * mdst_stride_of (bps_of f) mlock + (x * 4 + 1),
                src1_of f d (y * elem_stride (bps_of f) f.chroma_stride + x)⟩ ∨
          w = ⟨Dst.mdst, y * mdst_stride_of (bps_of f) mlock + (x * 4 + 2),
                src2_of f d (y * elem_stride (bps_of f) f.chroma_stride + x)⟩
        else
          w = ⟨Dst.mdst, y * mdst_stride_of (bps_of f) mlock + x,
                src0_of f d (y * elem_stride (bps_of f) f.luma_stride + x)⟩ ∨
          ((x < f.chroma_width ∧ y < f.chroma_height) ∧
            (w = ⟨Dst.cdst, y * clock.Pitch.tdiv (bps_of f) + (x * 4 + 0 + c_offset_of f),
                  src1_of f d (y * elem_stride (bps_of f) f.chroma_stride + x)⟩ ∨
             w = ⟨Dst.cdst, y * clock.Pitch.tdiv (bps_of f) + (x * 4 + 1 + c_offset_of f),
                  src2_of f d (y * elem_stride (bps_of f) f.chroma_stride + x)⟩))) := by
  have hb := bps_of_cases f
  refine ⟨⟨fun h => ?_, fun h => ?_⟩, run_upload_eq_upload_frame f d mlock clock,
    fun y q => ⟨?_, ?_, ?_, ?_⟩, fun w => ?_⟩
  · simp [bps_of, hbd_of_le f h]
  · simp [bps_of, hbd_of_gt f h]
  · exact row_offset_bytes _ _ _ y q (elem_stride_exact _ _ hb hls)
  · exact row_offset_bytes _ _ _ y q (elem_stride_exact _ _ hb hcs)
  · exact row_offset_bytes _ _ _ y q (Int.mul_tdiv_cancel' hmp)
  · exact row_offset_bytes _ _ _ y q (Int.mul_tdiv_cancel' hcp)
  · rw [run_upload_eq, state_at_stores, mem_stores_iff]
    have hy : ∀ y : Int, 0 ≤ y →
        (y < ((f.luma_height.toNat : Nat) : Int) ↔ y < f.luma_height) :=
      fun y _ => by omega
    cases hs : single_texture_of d with
    | true =>
      have hgs : (call_geometry f d mlock clock).single_texture = true := hs
      simp only [hgs, if_true]
      constructor
      · rintro ⟨x, y, h1, h2, h3, h4, h5⟩
        exact ⟨x, y, h1, h2, h3, (hy y h3).1 h4, h5⟩
      · rintro ⟨x, y, h1, h2, h3, h4, h5⟩
        exact ⟨x, y, h1, h2, h3, (hy y h3).2 h4, h5⟩
    | false =>
      have hgs : (call_geometry f d mlock clock).single_texture = false := hs
      have hcd : (call_geometry f d mlock clock).cdst_stride = clock.Pitch.tdiv (bps_of f) := by
        simp [call_geometry, geometry_of, cdst_stride_of, hs]
      simp only [hgs, Bool.false_eq_true, if_false, hcd]
      constructor
      · rintro ⟨x, y, h1, h2, h3, h4, h5⟩
        exact ⟨x, y, h1, h2, h3, (hy y h3).1 h4, h5⟩
      · rintro ⟨x, y, h1, h2, h3, h4, h5⟩
        exact ⟨x, y, h1, h2, h3, (hy y h3).2 h4, h5⟩

/-- Witness of C17: the 10-bit 2x2 frame (strides 4 bytes) on `rgb_tex` with pitch 16 bytes:
the width is 2 bytes and element 1 of row 1 of the luma plane is at byte `1 * 4 + 1 * 2`. -/
theorem C17_sample_width_and_strides_witness :
    bps_of (frame_2x2 10 2) = 2 ∧
    bps_of (frame_2x2 10 2) *
        (1 * elem_stride (bps_of (frame_2x2 10 2)) (frame_2x2 10 2).luma_stride + 1) =
      1 * (frame_2x2 10 2).luma_stride + 1 * bps_of (frame_2x2 10 2) :=
  ⟨(C17_sample_width_and_strides (frame_2x2 10 2) (rgb_device 16) ⟨16⟩ ⟨0⟩
      (Dvd.intro 8 rfl) (Dvd.intro 0 rfl) (Dvd.intro 2 rfl) (Dvd.intro 2 rfl)).1.2
      (by decide),
    ((C17_sample_width_and_strides (frame_2x2 10 2) (rgb_device 16) ⟨16⟩ ⟨0⟩
      (Dvd.intro 8 rfl) (Dvd.intro 0 rfl) (Dvd.intro 2 rfl) (Dvd.intro 2 rfl)).2.2.1 1 1).1⟩

/-! ## Frame of the main surface -/

/-- C18.  When the element stride of the main destination is at least the width a row
receives (`luma_width` in separate-surface mode; in single-texture mode the span
`4 * luma_width - 1` from the first to the last written sample, a fortiori
`4 * luma_width`), every position of the main surface outside the written slots keeps its
prior value: the rows `y ≥ luma_height`, and in the other rows the positions `q` of the row
with `q ≥ luma_width` (separate surfaces), respectively with `q ≥ 4 * luma_width` or
`q = 4x + 3` (single texture).  The only memory effects of the call are its logged stores to
the two destinations (with `single_texture`, to the main one only): the source planes are
arguments that are read and never stored to. -/
theorem C18_main_surface_frame (single_texture : Bool) (c_offset bps : Int)
    (mlock clock : D3DLOCKED_RECT) (luma_stride chroma_stride : Int) (src0 src1 src2 : Buf)
    (luma_width luma_height chroma_width chroma_height : Int) (mbits cbits : Buf)
    (hstride : (if single_texture = true then 4 * luma_width - 1 else luma_width) ≤
      mdst_stride_of bps mlock) :
    (∀ y q : Int, 0 ≤ q → q < mdst_stride_of bps mlock →
      (luma_height ≤ y ∨
        (if single_texture = true then 4 * luma_width ≤ q ∨ q % 4 = 3
         else luma_width ≤ q)) →
      (upload_frame single_texture c_offset bps mlock clock luma_stride chroma_stride
          src0 src1 src2 luma_width luma_height chroma_width chroma_height mbits cbits).mbits
        (y * mdst_stride_of bps mlock + q) = mbits (y * mdst_stride_of bps mlock + q)) ∧
    (upload_frame single_texture c_offset bps mlock clock luma_stride chroma_stride
        src0 src1 src2 luma_width luma_height chroma_width chroma_height mbits cbits).mbits =
      apply_stores Dst.mdst
        (upload_frame single_texture c_offset bps mlock clock luma_stride chroma_stride
          src0 src1 src2 luma_width luma_height chroma_width chroma_height mbits cbits).stores
        mbits ∧
    (upload_frame single_texture c_offset bps mlock clock luma_stride chroma_stride
        src0 src1 src2 luma_width luma_height chroma_width chroma_height mbits cbits).cbits =
      apply_stores Dst.cdst
        (upload_frame single_texture c_offset bps mlock clock luma_stride chroma_stride
          src0 src1 src2 luma_width luma_height chroma_width chroma_height mbits cbits).stores
        cbits ∧
    (single_texture = true →
      (upload_frame single_texture c_offset bps mlock clock luma_stride chroma_stride
        src0 src1 src2 luma_width luma_height chroma_width chroma_height mbits cbits).cbits =
        cbits) := by
  rw [upload_frame_eq]
  refine ⟨?_, rfl, rfl, ?_⟩
  · intro y q hq0 hq hcase
    apply apply_stores_of_not_hit
    intro w hw _ e
    obtain ⟨y', hy', x', hx', hpx⟩ := (mem_stores_upto _ _ w).1 hw
    have hx'' : (x' : Int) < luma_width := hx'
    have hy'' : (y' : Int) < luma_height := by omega
    have key : ∀ q' : Int, 0 ≤ q' → q' < mdst_stride_of bps mlock →
        w.idx = (y' : Int) * mdst_stride_of bps mlock + q' → (y' : Int) = y ∧ q' = q :=
      fun q' h0 h1 hidx =>
        grid_inj (mdst_stride_of bps mlock) q' q y' y h0 h1 hq0 hq (hidx ▸ e)
    cases single_texture with
    | true =>
      simp only [if_true] at hstride hcase
      have hj : ∀ j : Int, 0 ≤ j → j ≤ 2 →
          w.idx = (y' : Int) * mdst_stride_of bps mlock + (x' * 4 + j) → False := by
        intro j hj0 hj2 hidx
        obtain ⟨h1, h2⟩ := key (x' * 4 + j) (by omega) (by omega) hidx
        omega
      rcases (mem_px_single _ rfl y' x' w).1 hpx with rfl | rfl | rfl
      · exact hj 0 (by norm_num) (by norm_num) rfl
      · exact hj 1 (by norm_num) (by norm_num) rfl
      · exact hj 2 (by norm_num) (by norm_num) rfl
    | false =>
      simp only [Bool.false_eq_true, if_false] at hstride hcase
      rcases (mem_px_dual _ rfl y' x' w).1 hpx with rfl | ⟨_, rfl | rfl⟩
      · obtain ⟨h1, h2⟩ := key x' (by omega) (by omega) rfl
        omega
      · simp at *
      · simp at *
  · intro hs
    subst hs
    apply apply_stores_of_no_dst
    intro w hw hd
    have := dst_of_single _ rfl _ w hw
    rw [this] at hd
    cases hd

/-- Witness of C18: 8-bit single texture, 2x2, pitch 8: position `4 * 0 + 3` of row 0 keeps
its value. -/
theorem C18_main_surface_frame_witness :
    (upload_frame true 1 1 ⟨8⟩ ⟨0⟩ 2 2 (buf_of_list [9, 10, 11, 12])
        (buf_of_list [5, 6, 7, 8]) (buf_of_list [1, 2, 3, 4]) 2 2 2 2 zero_buf zero_buf).mbits
      (0 * mdst_stride_of 1 ⟨8⟩ + 3) = zero_buf (0 * mdst_stride_of 1 ⟨8⟩ + 3) :=
  (C18_main_surface_frame true 1 1 ⟨8⟩ ⟨0⟩ 2 2 (buf_of_list [9, 10, 11, 12])
    (buf_of_list [5, 6, 7, 8]) (buf_of_list [1, 2, 3, 4]) 2 2 2 2 zero_buf zero_buf
    (by decide)).1 0 3 (by decide) (by decide) (by decide)

end MadVR
